import Mathlib

/-!
Verification of the XDR generator core (tools/xdr_generator): a shallow
embedding, in Lean 4, of the AST model (xdr_ast.py), the reference
resolution pass, the dependency resolver (dependency_resolver.py), the
lexer (xdr_lexer.py), the recursive-descent parser (xdr_parser.py) and
the Dart analyzer/merger (dart_analyzer.py, dart_merger.py), together
with theorems settling the specified behaviour of each component.

Conventions used throughout:
- Python `str` is modelled as `String` for scalar data and as `List Char`
  where character-indexed scanning is involved; Python `int` is `Int`
  (arbitrary precision), positions and lengths are `Nat`.
- Python `dict` is modelled as an insertion-ordered association list in
  which a later binding for the same key overrides an earlier one.
- Python exceptions are modelled with `Except`/dedicated result types.
- Python `while` loops are modelled as fuel-indexed structural
  recursions; where a claim depends on termination, a fuel-sufficiency
  theorem is proved rather than assumed.
-/

namespace XdrGen

/-! ## AST model (xdr_ast.py) -/

/-- Embeds dataclass `XdrConstant` (xdr_ast.py): a `const NAME = value;`
definition. -/
structure XdrConstant where
  name : String
  value : Int
  line : Nat := 0
deriving DecidableEq, Repr

/-- Embeds dataclass `XdrEnumValue` (xdr_ast.py): one enum member, with
either a literal `value` or a symbolic `value_ref` awaiting resolution. -/
structure XdrEnumValue where
  name : String
  value : Option Int := none
  value_ref : Option String := none
  line : Nat := 0
deriving DecidableEq, Repr

/-- Embeds dataclass `XdrEnum` (xdr_ast.py). -/
structure XdrEnum where
  name : String
  values : List XdrEnumValue
  line : Nat := 0
deriving DecidableEq, Repr

/-- Embeds dataclass `XdrTypedef` (xdr_ast.py). -/
structure XdrTypedef where
  name : String
  underlying_type : String
  is_opaque : Bool := false
  is_string : Bool := false
  size : Option Int := none
  size_ref : Option String := none
  is_variable : Bool := false
  is_fixed : Bool := false
  line : Nat := 0
deriving DecidableEq, Repr

mutual

/-- Embeds dataclass `XdrField` (xdr_ast.py): a struct/union-case field.
The single constructor carries the dataclass fields in declaration
order. -/
inductive XdrField : Type where
  | mk
      (name : String)
      (type_name : String)
      (is_optional : Bool)
      (is_variable_array : Bool)
      (is_fixed_array : Bool)
      (array_size : Option Int)
      (array_size_ref : Option String)
      (max_length : Option Int)
      (inline_fields : Option (List XdrField))
      (inline_union : Option XdrUnion)
      (inline_struct : Option XdrStruct)
      (line : Nat)

/-- Embeds dataclass `XdrStruct` (xdr_ast.py). -/
inductive XdrStruct : Type where
  | mk (name : String) (fields : List XdrField) (line : Nat)

/-- Embeds dataclass `XdrUnionCase` (xdr_ast.py). -/
inductive XdrUnionCase : Type where
  | mk (case_values : List String) (field : Option XdrField)
      (is_default : Bool) (line : Nat)

/-- Embeds dataclass `XdrUnion` (xdr_ast.py). -/
inductive XdrUnion : Type where
  | mk (name : String) (discriminant_name : String)
      (discriminant_type : String) (cases : List XdrUnionCase) (line : Nat)

end

def XdrField.name : XdrField → String
  | .mk n _ _ _ _ _ _ _ _ _ _ _ => n

def XdrField.type_name : XdrField → String
  | .mk _ t _ _ _ _ _ _ _ _ _ _ => t

def XdrField.is_optional : XdrField → Bool
  | .mk _ _ o _ _ _ _ _ _ _ _ _ => o

def XdrField.is_variable_array : XdrField → Bool
  | .mk _ _ _ v _ _ _ _ _ _ _ _ => v

def XdrField.is_fixed_array : XdrField → Bool
  | .mk _ _ _ _ f _ _ _ _ _ _ _ => f

def XdrField.array_size : XdrField → Option Int
  | .mk _ _ _ _ _ s _ _ _ _ _ _ => s

def XdrField.array_size_ref : XdrField → Option String
  | .mk _ _ _ _ _ _ r _ _ _ _ _ => r

def XdrField.max_length : XdrField → Option Int
  | .mk _ _ _ _ _ _ _ m _ _ _ _ => m

def XdrField.inline_fields : XdrField → Option (List XdrField)
  | .mk _ _ _ _ _ _ _ _ fs _ _ _ => fs

def XdrField.inline_union : XdrField → Option XdrUnion
  | .mk _ _ _ _ _ _ _ _ _ u _ _ => u

def XdrField.inline_struct : XdrField → Option XdrStruct
  | .mk _ _ _ _ _ _ _ _ _ _ s _ => s

def XdrField.line : XdrField → Nat
  | .mk _ _ _ _ _ _ _ _ _ _ _ l => l

def XdrStruct.name : XdrStruct → String
  | .mk n _ _ => n

def XdrStruct.fields : XdrStruct → List XdrField
  | .mk _ fs _ => fs

def XdrStruct.line : XdrStruct → Nat
  | .mk _ _ l => l

def XdrUnionCase.case_values : XdrUnionCase → List String
  | .mk cs _ _ _ => cs

def XdrUnionCase.field : XdrUnionCase → Option XdrField
  | .mk _ f _ _ => f

def XdrUnionCase.is_default : XdrUnionCase → Bool
  | .mk _ _ d _ => d

def XdrUnionCase.line : XdrUnionCase → Nat
  | .mk _ _ _ l => l

def XdrUnion.name : XdrUnion → String
  | .mk n _ _ _ _ => n

def XdrUnion.discriminant_name : XdrUnion → String
  | .mk _ d _ _ _ => d

def XdrUnion.discriminant_type : XdrUnion → String
  | .mk _ _ t _ _ => t

def XdrUnion.cases : XdrUnion → List XdrUnionCase
  | .mk _ _ _ cs _ => cs

def XdrUnion.line : XdrUnion → Nat
  | .mk _ _ _ _ l => l

/-- Embeds `XdrField.is_array` (xdr_ast.py): any array kind, except that
`string<N>` is explicitly NOT an array. -/
def XdrField.is_array (f : XdrField) : Bool :=
  if f.type_name = "string" then false
  else f.is_variable_array || f.is_fixed_array

/-- Embeds `XdrField.is_unbounded_array` (xdr_ast.py). -/
def XdrField.is_unbounded_array (f : XdrField) : Bool :=
  f.is_variable_array && f.array_size = none && f.array_size_ref = none

/-- Embeds dataclass `XdrFile` (xdr_ast.py): one parsed XDR file. The
`namespace` attribute is rendered `namespaceName` (Lean keyword). -/
structure XdrFile where
  filename : String
  namespaceName : Option String := none
  constants : List XdrConstant := []
  typedefs : List XdrTypedef := []
  enums : List XdrEnum := []
  structs : List XdrStruct := []
  unions : List XdrUnion := []

/-! ## Reference resolution (XdrFile.resolve_references, xdr_ast.py)

The Python method mutates `enum_val.value` in place; the embedding is the
corresponding pure transformation.  The method's unresolved-reference
branch is literally `pass` (with the comment "Leave as None if reference
not found (error handling)"): it emits no warning and raises nothing.  To
make that observable, the embedding returns, next to the updated file,
the list of warnings the pass emits (which the source makes empty). -/

/-- Python dict lookup for an insertion-ordered association list where a
later binding overrides an earlier one. -/
def dictGet (table : List (String × Int)) (k : String) : Option Int :=
  table.foldl (fun acc p => if p.1 = k then some p.2 else acc) none

/-- Symbol-table construction of `resolve_references`: constants and
literal enum values of this file, then the same parts of every other
provided file (the Python loop skips `self` by identity; `others` stands
for the remaining files). -/
def symbolTable (self : XdrFile) (others : List XdrFile) : List (String × Int) :=
  (self.constants.map (fun c => (c.name, c.value)))
    ++ (self.enums.flatMap (fun e =>
          e.values.filterMap (fun v => v.value.map (fun n => (v.name, n)))))
    ++ (others.flatMap (fun f =>
          (f.constants.map (fun c => (c.name, c.value)))
            ++ (f.enums.flatMap (fun e =>
                  e.values.filterMap (fun v => v.value.map (fun n => (v.name, n)))))))

/-- Resolution step for one enum value: if it carries a `value_ref` found
in the table, its `value` is overwritten; the reference-not-found branch
of the source is `pass` — no warning is produced (second component). -/
def resolveValue (table : List (String × Int)) (v : XdrEnumValue) :
    XdrEnumValue × List String :=
  match v.value_ref with
  | some r =>
    match dictGet table r with
    | some n => ({ v with value := some n }, [])
    | none => (v, [])
  | none => (v, [])

/-- Embeds `XdrFile.resolve_references` (xdr_ast.py): builds the symbol
table, then rewrites the enum values of `self`; also returns the warnings
emitted during resolution. -/
def resolveReferences (self : XdrFile) (others : List XdrFile) :
    XdrFile × List String :=
  let table := symbolTable self others
  let pairs := self.enums.map (fun e =>
    let vs := e.values.map (resolveValue table)
    ({ e with values := vs.map Prod.fst }, vs.flatMap Prod.snd))
  ({ self with enums := pairs.map Prod.fst }, pairs.flatMap Prod.snd)

/-- Patch description used to state the frame property of
`resolve_references`: the `value` field after resolution, as a function
of the old enum value and the symbol table only. -/
def patchedValue (table : List (String × Int)) (v : XdrEnumValue) : Option Int :=
  match v.value_ref with
  | some r =>
    match dictGet table r with
    | some n => some n
    | none => v.value
  | none => v.value

/-! ## Dependency resolver (dependency_resolver.py)

`DependencyResolver.file_dependencies` is a dict mapping a filename to
the set of filenames it depends on.  It is modelled as an association
list of dependency lists; the dict-key uniqueness and set-element
uniqueness invariants appear as `Nodup` hypotheses where needed. -/

/-- A file-level dependency graph: `(file, files it depends on)`. -/
abbrev FileGraph : Type := List (String × List String)

/-- Embeds `self.file_dependencies.get(f, set())`. -/
def depsOf (g : FileGraph) (f : String) : List String :=
  match List.find? (fun p => p.1 = f) g with
  | some p => p.2
  | none => []

/-- Python string comparison `a < b`: lexicographic comparison of the
code-point sequences. -/
def pyStrLt (a b : String) : Prop :=
  a.data < b.data

instance (a b : String) : Decidable (pyStrLt a b) :=
  inferInstanceAs (Decidable (a.data < b.data))

/-- Embeds `DependencyResolver.detect_circular_dependencies`: for every
directed edge `(file_a, file_b)`, report the pair exactly when the
reverse edge also exists and `file_a < file_b` (duplicate avoidance). -/
def detectCircularDependencies (g : FileGraph) : List (String × String) :=
  g.flatMap (fun p =>
    p.2.filterMap (fun b =>
      if p.1 ∈ depsOf g b ∧ pyStrLt p.1 b then some (p.1, b) else none))

/-- Result of `get_topological_order`.  `circular` and `unable` embed the
two `ValueError` raises of the source; `fuelOut` is the (provably
unreachable for the inputs evaluated here) fuel bound of the embedded
`while` loop. -/
inductive TopoResult where
  | ok (order : List String)
  | circular (pairs : List (String × String))
  | unable
  | fuelOut
deriving DecidableEq, Repr

/-- First-seen-order deduplication; stands for the Python `set`
`all_files` (whose iteration order is unspecified — no claim settled
below depends on the order chosen here). -/
def dedupKeepFirst (xs : List String) : List String :=
  xs.foldl (fun acc x => if x ∈ acc then acc else acc ++ [x]) []

/-- Integer-valued counter map: lookup with default 0 (`defaultdict(int)`). -/
def mapGetI (m : List (String × Int)) (k : String) : Int :=
  match List.find? (fun p => p.1 = k) m with
  | some p => p.2
  | none => 0

/-- Counter-map update: replaces the first binding of `k`, appending a
fresh binding if none exists. -/
def mapSetI (m : List (String × Int)) (k : String) (v : Int) :
    List (String × Int) :=
  match m with
  | [] => [(k, v)]
  | p :: rest => if p.1 = k then (k, v) :: rest else p :: mapSetI rest k v

/-- One pop of the queue in `get_topological_order`'s while loop: append
`file` to the result, then scan `all_files` and decrement the in-degree
of every file that depends on `file`, enqueueing it when its in-degree
reaches zero (exactly the source's inner for loop). -/
def kahnStep (g : FileGraph) (allFiles : List String) (file : String)
    (deg : List (String × Int)) : List (String × Int) × List String :=
  allFiles.foldl
    (fun acc other =>
      if file ∈ depsOf g other then
        let d := mapGetI acc.1 other - 1
        (mapSetI acc.1 other d, if d = 0 then acc.2 ++ [other] else acc.2)
      else acc)
    (deg, [])

/-- The while loop of `get_topological_order`, fuel-indexed. -/
def kahnGo (g : FileGraph) (allFiles : List String) :
    Nat → List (String × Int) → List String → List String →
      Option (List String)
  | _, _, [], result => some result
  | 0, _, _ :: _, _ => none
  | fuel + 1, deg, file :: queue, result =>
    let s := kahnStep g allFiles file deg
    kahnGo g allFiles fuel s.1 (queue ++ s.2) (result ++ [file])

/-- Embeds `DependencyResolver.get_topological_order`: the pairwise
circular check, in-degree initialisation (`in_degree[dep] += 1` for every
dependency of every file), the in-degree-zero queue, the while loop, and
the defensive length check. -/
def getTopologicalOrder (g : FileGraph) : TopoResult :=
  let circles := detectCircularDependencies g
  if circles ≠ [] then .circular circles
  else
    let allFiles := dedupKeepFirst (g.map Prod.fst ++ g.flatMap Prod.snd)
    let degInit := allFiles.map (fun f => (f, (0 : Int)))
    let deg := g.foldl
      (fun m p => p.2.foldl (fun m d => mapSetI m d (mapGetI m d + 1)) m)
      degInit
    let queue := allFiles.filter (fun f => mapGetI deg f = 0)
    match kahnGo g allFiles (allFiles.length + 1) deg queue [] with
    | none => .fuelOut
    | some result =>
      if result.length ≠ allFiles.length then .unable else .ok result

/-! ## Theorems about the dependency resolver -/

/-- Number of occurrences of `a` in `l` (propositional-equality count). -/
def countEq {α : Type} [DecidableEq α] (l : List α) (a : α) : Nat :=
  (l.filter (fun y => y = a)).length

theorem countEq_cons {α : Type} [DecidableEq α] (x : α) (l : List α) (a : α) :
    countEq (x :: l) a = countEq l a + (if x = a then 1 else 0) := by
  by_cases h : x = a <;> simp [countEq, List.filter_cons, h]

theorem countEq_append {α : Type} [DecidableEq α] (l₁ l₂ : List α) (a : α) :
    countEq (l₁ ++ l₂) a = countEq l₁ a + countEq l₂ a := by
  simp [countEq, List.filter_append]

theorem mem_depsOf (g : FileGraph) (hk : (g.map Prod.fst).Nodup) (a b : String) :
    b ∈ depsOf g a ↔ ∃ p ∈ g, p.1 = a ∧ b ∈ p.2 := by
  induction g with
  | nil => simp [depsOf, List.find?]
  | cons p rest ih =>
    have hk2 : (p.1 :: rest.map Prod.fst).Nodup := by simpa using hk
    obtain ⟨hkey, hk'⟩ := List.nodup_cons.mp hk2
    by_cases hpa : p.1 = a
    · constructor
      · intro hb
        refine ⟨p, List.mem_cons_self .., hpa, ?_⟩
        simpa [depsOf, List.find?, hpa] using hb
      · rintro ⟨q, hmem, hq1, hb⟩
        rcases List.mem_cons.mp hmem with h | h
        · subst h
          simpa [depsOf, List.find?, hpa] using hb
        · exact absurd (hpa ▸ hq1 ▸ List.mem_map_of_mem Prod.fst h) hkey
    · have hstep : depsOf (p :: rest) a = depsOf rest a := by
        simp [depsOf, List.find?, hpa]
      rw [hstep, ih hk']
      constructor
      · rintro ⟨q, hmem, hq1, hb⟩
        exact ⟨q, List.mem_cons_of_mem _ hmem, hq1, hb⟩
      · rintro ⟨q, hmem, hq1, hb⟩
        rcases List.mem_cons.mp hmem with h | h
        · exact absurd (h ▸ hq1) hpa
        · exact ⟨q, h, hq1, hb⟩

theorem count_inner (G : FileGraph) (k : String) (deps : List String)
    (hdep : deps.Nodup) (a b : String) :
    countEq (deps.filterMap (fun x =>
        if k ∈ depsOf G x ∧ pyStrLt k x then some (k, x) else none)) (a, b) =
      if k = a ∧ b ∈ deps ∧ k ∈ depsOf G b ∧ pyStrLt k b then 1 else 0 := by
  induction deps with
  | nil => simp [countEq]
  | cons x xs ih =>
    obtain ⟨hx, hxs⟩ := List.nodup_cons.mp hdep
    have ihx := ih hxs
    by_cases hP : k ∈ depsOf G x ∧ pyStrLt k x
    · simp only [List.filterMap_cons, if_pos hP, countEq_cons, ihx]
      by_cases hka : k = a
      · subst hka
        by_cases hxb : x = b
        · subst hxb
          have hnotxs : ¬ (k = k ∧ x ∈ xs ∧ k ∈ depsOf G x ∧ pyStrLt k x) :=
            fun h => hx h.2.1
          rw [if_neg hnotxs, if_pos rfl,
            if_pos ⟨rfl, List.mem_cons_self .., hP.1, hP.2⟩]
        · have hne : ¬ ((k, x) = (k, b)) := by simp [hxb]
          rw [if_neg hne, Nat.add_zero]
          refine if_congr ?_ rfl rfl
          constructor
          · rintro ⟨h1, h2, h3, h4⟩
            exact ⟨h1, List.mem_cons_of_mem _ h2, h3, h4⟩
          · rintro ⟨h1, h2, h3, h4⟩
            rcases List.mem_cons.mp h2 with h | h
            · exact absurd h.symm hxb
            · exact ⟨h1, h, h3, h4⟩
      · have hne : ¬ ((k, x) = (a, b)) := by simp [hka]
        rw [if_neg hne, Nat.add_zero]
        refine if_congr ?_ rfl rfl
        constructor
        · rintro ⟨h1, _⟩
          exact absurd h1 hka
        · rintro ⟨h1, _⟩
          exact absurd h1 hka
    · simp only [List.filterMap_cons, if_neg hP, ihx]
      refine if_congr ?_ rfl rfl
      constructor
      · rintro ⟨h1, h2, h3, h4⟩
        exact ⟨h1, List.mem_cons_of_mem _ h2, h3, h4⟩
      · rintro ⟨h1, h2, h3, h4⟩
        rcases List.mem_cons.mp h2 with h | h
        · exact absurd ⟨h ▸ h3, h ▸ h4⟩ hP
        · exact ⟨h1, h, h3, h4⟩

theorem count_outer (G : FileGraph) (g : FileGraph)
    (hk : (g.map Prod.fst).Nodup) (hd : ∀ p ∈ g, p.2.Nodup) (a b : String) :
    countEq (g.flatMap (fun p => p.2.filterMap (fun x =>
        if p.1 ∈ depsOf G x ∧ pyStrLt p.1 x then some (p.1, x) else none))) (a, b) =
      if (∃ p ∈ g, p.1 = a ∧ b ∈ p.2) ∧ a ∈ depsOf G b ∧ pyStrLt a b
        then 1 else 0 := by
  induction g with
  | nil => simp [countEq]
  | cons p rest ih =>
    obtain ⟨k, deps⟩ := p
    have hk2 : (k :: rest.map Prod.fst).Nodup := by simpa using hk
    obtain ⟨hkey, hk'⟩ := List.nodup_cons.mp hk2
    have ihr := ih hk' (fun q hq => hd q (List.mem_cons_of_mem _ hq))
    rw [List.flatMap_cons, countEq_append,
      count_inner G k deps (hd (k, deps) (List.mem_cons_self ..)) a b, ihr]
    by_cases hka : k = a
    · subst hka
      have hrest : ¬ ∃ q ∈ rest, q.1 = k ∧ b ∈ q.2 := by
        rintro ⟨q, hmem, hq1, _⟩
        exact hkey (hq1 ▸ List.mem_map_of_mem Prod.fst hmem)
      rw [if_neg (show ¬ ((∃ q ∈ rest, q.1 = k ∧ b ∈ q.2) ∧ k ∈ depsOf G b ∧ pyStrLt k b)
        from fun h => hrest h.1), Nat.add_zero]
      refine if_congr ?_ rfl rfl
      constructor
      · rintro ⟨_, h2, h3, h4⟩
        exact ⟨⟨(k, deps), List.mem_cons_self .., rfl, h2⟩, h3, h4⟩
      · rintro ⟨⟨q, hmem, hq1, hbq⟩, h3, h4⟩
        rcases List.mem_cons.mp hmem with h | h
        · subst h
          exact ⟨rfl, hbq, h3, h4⟩
        · exact absurd ⟨q, h, hq1, hbq⟩ hrest
    · rw [if_neg (show ¬ (k = a ∧ b ∈ deps ∧ k ∈ depsOf G b ∧ pyStrLt k b)
        from fun h => hka h.1), Nat.zero_add]
      refine if_congr ?_ rfl rfl
      constructor
      · rintro ⟨⟨q, hmem, hq1, hbq⟩, h3, h4⟩
        exact ⟨⟨q, List.mem_cons_of_mem _ hmem, hq1, hbq⟩, h3, h4⟩
      · rintro ⟨⟨q, hmem, hq1, hbq⟩, h3, h4⟩
        rcases List.mem_cons.mp hmem with h | h
        · subst h
          exact absurd hq1 hka
        · exact ⟨⟨q, h, hq1, hbq⟩, h3, h4⟩

/-- C8: `detect_circular_dependencies` reports, for a well-formed
dependency dict (distinct keys, set-valued dependencies), each mutually
dependent unordered file pair exactly once, in canonical (ascending)
order — and nothing else, so a chain cycle of length ≥ 3 with no mutual
edge produces no report. -/
theorem detect_circular_reports_mutual_pairs_exactly_once
    (g : FileGraph) (hk : (g.map Prod.fst).Nodup)
    (hd : ∀ p ∈ g, p.2.Nodup) (a b : String) :
    countEq (detectCircularDependencies g) (a, b) =
      if pyStrLt a b ∧ b ∈ depsOf g a ∧ a ∈ depsOf g b then 1 else 0 := by
  rw [detectCircularDependencies, count_outer g g hk hd a b]
  refine if_congr ?_ rfl rfl
  constructor
  · rintro ⟨hex, h3, h4⟩
    exact ⟨h4, (mem_depsOf g hk a b).mpr hex, h3⟩
  · rintro ⟨h4, hmem, h3⟩
    exact ⟨(mem_depsOf g hk a b).mp hmem, h3, h4⟩

/-- Witness for C8 on a concrete mutually-dependent file pair. -/
theorem detect_circular_reports_mutual_pairs_exactly_once_witness :
    countEq (detectCircularDependencies
        [("a.dart", ["b.dart"]), ("b.dart", ["a.dart"])]) ("a.dart", "b.dart") = 1 := by
  have h := detect_circular_reports_mutual_pairs_exactly_once
    [("a.dart", ["b.dart"]), ("b.dart", ["a.dart"])]
    (by decide) (by decide) "a.dart" "b.dart"
  rw [h]
  decide

/-- C1: refuted at a concrete input.  The file graph where `a.dart`
depends on `b.dart` (and nothing else) is acyclic — the pairwise cycle
check reports nothing — yet `get_topological_order` raises
`ValueError("Unable to determine topological order")` instead of
returning `["b.dart", "a.dart"]`: the in-degree map counts, for every
file, the number of files that depend on it, while the queue step
decrements a file's count when one of its *dependencies* is popped, so
`b.dart` (depended upon, but itself dependency-free) is never dequeued
and the defensive length check fires. -/
theorem topo_raises_on_acyclic_one_edge_graph :
    detectCircularDependencies [("a.dart", ["b.dart"])] = [] ∧
    getTopologicalOrder [("a.dart", ["b.dart"])] = .unable :=
  ⟨rfl, rfl⟩

/-! ## Theorems about reference resolution -/

theorem resolveValue_fst (table : List (String × Int)) (v : XdrEnumValue) :
    (resolveValue table v).1 = { v with value := patchedValue table v } := by
  obtain ⟨n, val, ref, l⟩ := v
  rcases ref with _ | r
  · rfl
  · rcases h : dictGet table r with _ | x <;>
      simp [resolveValue, patchedValue, h]

theorem resolveValue_snd (table : List (String × Int)) (v : XdrEnumValue) :
    (resolveValue table v).2 = [] := by
  obtain ⟨n, val, ref, l⟩ := v
  rcases ref with _ | r
  · rfl
  · rcases h : dictGet table r with _ | x <;> simp [resolveValue, h]

/-- The resolution pass emits no warning at all: the
unresolved-reference branch of `resolve_references` is `pass`. -/
theorem resolveReferences_warnings_nil (self : XdrFile) (others : List XdrFile) :
    (resolveReferences self others).2 = [] := by
  rw [resolveReferences]
  have h : ∀ (l : List XdrEnumValue),
      ((l.map (resolveValue (symbolTable self others))).flatMap Prod.snd) = [] := by
    intro l
    induction l with
    | nil => rfl
    | cons v vs ih => simp [resolveValue_snd, ih]
  have h2 : ∀ (es : List XdrEnum),
      ((es.map (fun e =>
          let vs := e.values.map (resolveValue (symbolTable self others))
          (({ e with values := vs.map Prod.fst } : XdrEnum), vs.flatMap Prod.snd))).flatMap
        Prod.snd) = [] := by
    intro es
    induction es with
    | nil => rfl
    | cons e es ih => simp [h, ih]
  exact h2 self.enums

/-- C9: frame property of `resolve_references`.  The pass emits no
warning and returns the input file with only the `value` fields of its
enum values replaced by `patchedValue` (table hit: overwritten with the
table entry; table miss or no reference: unchanged); the filename,
namespace, constants, typedefs, structs, unions, and the name/ref/line
data of every enum and enum value are untouched. -/
theorem resolveReferences_frame (self : XdrFile) (others : List XdrFile) :
    resolveReferences self others =
      ({ self with enums := self.enums.map (fun e =>
          { e with values := e.values.map (fun v =>
              { v with value := patchedValue (symbolTable self others) v }) }) },
        []) := by
  have hsnd := resolveReferences_warnings_nil self others
  rw [resolveReferences] at hsnd ⊢
  refine Prod.ext ?_ hsnd
  show XdrFile.mk _ _ _ _ _ _ _ = XdrFile.mk _ _ _ _ _ _ _
  simp only [List.map_map]
  congr 1
  apply List.map_congr_left
  intro e _
  simp only [Function.comp]
  congr 1
  apply List.map_congr_left
  intro v _
  simpa using resolveValue_fst (symbolTable self others) v

/-- The enum file `enum C \x7b Z = UNDEFINED_SYMBOL \x7d;` of the spec's
error-handling scenario, as parsed: `Z` carries an unresolved symbolic
reference. -/
def c5File : XdrFile :=
  { filename := "c.x",
    enums := [{ name := "C",
                values := [{ name := "Z", value := none,
                             value_ref := some "UNDEFINED_SYMBOL" }] }] }

/-- C5, counterexample: resolving `enum C \x7b Z = UNDEFINED_SYMBOL \x7d;`
with `UNDEFINED_SYMBOL` absent from every symbol table leaves `Z`
unresolved and emits zero warnings, not exactly one: `resolve_references`
has no warning channel at all (its not-found branch is `pass`). -/
theorem resolve_unknown_ref_emits_zero_warnings :
    ((resolveReferences c5File []).2).length = 0 ∧
    ((resolveReferences c5File []).1.enums.map (fun e =>
        e.values.map XdrEnumValue.value)) = [[none]] :=
  ⟨rfl, rfl⟩

/-- C5, amended: for an enum value whose symbolic reference is absent
from the symbol table, `resolve_references` leaves the value entirely
unchanged, emits no warning, and (being a total function) never raises. -/
theorem resolve_unknown_ref_leaves_value_and_warns_never
    (self : XdrFile) (others : List XdrFile) (v : XdrEnumValue) (r : String)
    (hr : v.value_ref = some r)
    (habs : dictGet (symbolTable self others) r = none) :
    (resolveReferences self others).2 = [] ∧
    resolveValue (symbolTable self others) v = (v, []) := by
  refine ⟨resolveReferences_warnings_nil self others, ?_⟩
  obtain ⟨n, val, ref, l⟩ := v
  have hr' : ref = some r := hr
  subst hr'
  rw [resolveValue]
  simp only
  rw [habs]

/-- Witness for C5's amended theorem at the concrete scenario file. -/
theorem resolve_unknown_ref_leaves_value_and_warns_never_witness :
    (resolveReferences c5File []).2 = [] ∧
    resolveValue (symbolTable c5File [])
        { name := "Z", value := none, value_ref := some "UNDEFINED_SYMBOL" } =
      ({ name := "Z", value := none, value_ref := some "UNDEFINED_SYMBOL" }, []) :=
  resolve_unknown_ref_leaves_value_and_warns_never c5File []
    { name := "Z", value := none, value_ref := some "UNDEFINED_SYMBOL" }
    "UNDEFINED_SYMBOL" rfl rfl

/-! ## Lexer (xdr_lexer.py)

The lexer is embedded over `List Char` with explicit positions.  Python's
Unicode-aware `str.isdigit`/`isalpha`/`isalnum` character predicates are
abstracted into a `CharClass` parameter: every universal theorem below
holds for an arbitrary `CharClass` (the only fact needed is that letters
count as alphanumeric, which Python guarantees), and concrete runs, whose
inputs are pure ASCII, instantiate it with the ASCII predicates on which
Python and Lean agree. -/

/-- Token categories of `xdr_lexer.Token.type`. -/
inductive TokType where
  | KEYWORD
  | IDENTIFIER
  | NUMBER
  | SYMBOL
  | EOF
deriving DecidableEq, Repr

/-- Embeds dataclass `Token` (xdr_lexer.py). -/
structure Token where
  type : TokType
  value : String
  line : Nat
  column : Nat
deriving DecidableEq, Repr

/-- The three character predicates `str.isdigit`, `str.isalpha`,
`str.isalnum` that the lexer consults. -/
structure CharClass where
  isdigit : Char → Bool
  isalpha : Char → Bool
  isalnum : Char → Bool

/-- ASCII instantiation of the character predicates; Python's predicates
agree with these on every ASCII character (Python additionally accepts
various non-ASCII digits and letters). -/
def asciiCC : CharClass :=
  { isdigit := Char.isDigit, isalpha := Char.isAlpha, isalnum := Char.isAlphanum }

/-- Embeds `XdrLexer.KEYWORDS`. -/
def KEYWORDS : List String :=
  ["typedef", "enum", "struct", "union", "switch", "case", "default",
   "void", "const", "opaque", "string", "unsigned", "int", "hyper",
   "float", "double", "bool", "namespace"]

/-- Embeds `XdrLexer.SYMBOLS`. -/
def SYMBOLS : List Char :=
  ['\x7b', '\x7d', '[', ']', '<', '>', '(', ')', ';', ':', ',', '=', '*']

/-- Embeds `XdrLexer._is_hex_digit`. -/
def isHexDigit (c : Char) : Bool :=
  c ∈ "0123456789abcdefABCDEF".data

/-- Kinds of `XdrLexerError` raised by the lexer. -/
inductive LexErrKind where
  | invalidChar (c : Char)
  | unterminatedBlockComment
  | invalidHexNumber
deriving DecidableEq, Repr

/-- An `XdrLexerError` with its `filename:line:column` context. -/
structure LexError where
  filename : String
  line : Nat
  column : Nat
  kind : LexErrKind
deriving DecidableEq, Repr

/-- Result of a lexer computation: a value, a raised `XdrLexerError`, or
exhaustion of the fuel that bounds an embedded `while` loop (proved
unreachable below for the fuel the entry point supplies). -/
inductive LexRes (α : Type) where
  | ok (val : α)
  | err (e : LexError)
  | fuelOut
deriving DecidableEq, Repr

/-- Mutable lexer state: `self.pos`, `self.line`, `self.column`,
`self.tokens`. -/
structure LexState where
  pos : Nat
  line : Nat
  column : Nat
  tokens : List Token
deriving DecidableEq, Repr

/-- Embeds `XdrLexer._current_char`. -/
def currentChar (src : List Char) (st : LexState) : Option Char :=
  src[st.pos]?

/-- Embeds `XdrLexer._peek_char` (only ever called with the default
offset 1). -/
def peekChar (src : List Char) (st : LexState) : Option Char :=
  src[st.pos + 1]?

/-- Embeds `XdrLexer._advance`: consume and return the current character,
updating position, line and column. -/
def advance (src : List Char) (st : LexState) : Option Char × LexState :=
  match src[st.pos]? with
  | none => (none, st)
  | some c =>
    if c = '\n' then
      (some c, { st with pos := st.pos + 1, line := st.line + 1, column := 1 })
    else
      (some c, { st with pos := st.pos + 1, column := st.column + 1 })

/-- The loop of `XdrLexer._skip_line_comment` (advance to the end of the
line, then consume the newline itself).  `_try_preprocessor` contains a
line-skipping loop with this same code, and reuses this embedding. -/
def skipLineCommentGo (src : List Char) : Nat → LexState → LexRes LexState
  | 0, _ => .fuelOut
  | fuel + 1, st =>
    match currentChar src st with
    | some c =>
      if c = '\n' then .ok (advance src st).2
      else skipLineCommentGo src fuel (advance src st).2
    | none => .ok st

/-- The loop of `XdrLexer._skip_block_comment`, after the opening `/*`
has been consumed; raises on an unterminated comment. -/
def skipBlockCommentGo (src : List Char) (fn : String) :
    Nat → LexState → LexRes LexState
  | 0, _ => .fuelOut
  | fuel + 1, st =>
    if st.pos < src.length then
      if currentChar src st = some '*' ∧ peekChar src st = some '/' then
        .ok (advance src (advance src st).2).2
      else skipBlockCommentGo src fn fuel (advance src st).2
    else .err ⟨fn, st.line, st.column, .unterminatedBlockComment⟩

/-- Embeds `XdrLexer._skip_block_comment`: consume the `/*`, then scan
for the matching `*/`. -/
def skipBlockComment (src : List Char) (fn : String) (st : LexState) :
    LexRes LexState :=
  let st1 := (advance src (advance src st).2).2
  skipBlockCommentGo src fn (src.length + 1 - st1.pos) st1

/-- Embeds the loop of `XdrLexer._skip_whitespace_and_comments`. -/
def skipWsAndCommentsGo (src : List Char) (fn : String) :
    Nat → LexState → LexRes LexState
  | 0, _ => .fuelOut
  | fuel + 1, st =>
    if st.pos < src.length then
      match currentChar src st with
      | some c =>
        if c = ' ' ∨ c = '\t' ∨ c = '\n' ∨ c = '\r' then
          skipWsAndCommentsGo src fn fuel (advance src st).2
        else if c = '/' ∧ peekChar src st = some '/' then
          match skipLineCommentGo src (src.length + 1 - st.pos) st with
          | .ok st' => skipWsAndCommentsGo src fn fuel st'
          | .err e => .err e
          | .fuelOut => .fuelOut
        else if c = '/' ∧ peekChar src st = some '*' then
          match skipBlockComment src fn st with
          | .ok st' => skipWsAndCommentsGo src fn fuel st'
          | .err e => .err e
          | .fuelOut => .fuelOut
        else .ok st
      | none => .ok st
    else .ok st

/-- Embeds `XdrLexer._try_symbol`: a one-character symbol token. -/
def trySymbol (src : List Char) (st : LexState) : Option LexState :=
  match currentChar src st with
  | some c =>
    if c ∈ SYMBOLS then
      let st' := (advance src st).2
      some { st' with tokens :=
        st'.tokens ++ [⟨.SYMBOL, String.mk [c], st.line, st.column⟩] }
    else none
  | none => none

/-- Decimal-digit scanning loop of `XdrLexer._try_number`. -/
def scanDecimalGo (src : List Char) (cc : CharClass) :
    Nat → String → LexState → LexRes (String × LexState)
  | 0, _, _ => .fuelOut
  | fuel + 1, value, st =>
    match currentChar src st with
    | some c =>
      if cc.isdigit c then
        scanDecimalGo src cc fuel (value.push c) (advance src st).2
      else .ok (value, st)
    | none => .ok (value, st)

/-- Hex-digit scanning loop of `XdrLexer._try_number`. -/
def scanHexGo (src : List Char) :
    Nat → String → LexState → LexRes (String × LexState)
  | 0, _, _ => .fuelOut
  | fuel + 1, value, st =>
    match currentChar src st with
    | some c =>
      if isHexDigit c then
        scanHexGo src fuel (value.push c) (advance src st).2
      else .ok (value, st)
    | none => .ok (value, st)

/-- Second half of `XdrLexer._try_number`, after the sign handling: the
hexadecimal/decimal branch (raising on `0x` followed by no hex digit)
and the final NUMBER-token append.  `tokenLine`/`tokenCol` are the
coordinates captured at the start of `_try_number`. -/
def tryNumberScan (src : List Char) (fn : String) (cc : CharClass)
    (tokenLine tokenCol : Nat) (value : String) (st1 : LexState) :
    LexRes (Option LexState) :=
  let scanned : LexRes (String × LexState) :=
    if currentChar src st1 = some '0' ∧
        (peekChar src st1 = some 'x' ∨ peekChar src st1 = some 'X') then
      let a1 := advance src st1
      let a2 := advance src a1.2
      let value2 := (value.push ((a1.1).getD '0')).push ((a2.1).getD 'x')
      let st2 := a2.2
      match currentChar src st2 with
      | some c =>
        if isHexDigit c then
          scanHexGo src (src.length + 1 - st2.pos) value2 st2
        else .err ⟨fn, tokenLine, tokenCol, .invalidHexNumber⟩
      | none => .err ⟨fn, tokenLine, tokenCol, .invalidHexNumber⟩
    else
      scanDecimalGo src cc (src.length + 1 - st1.pos) value st1
  match scanned with
  | .err e => .err e
  | .fuelOut => .fuelOut
  | .ok (value', st') =>
    .ok (some { st' with tokens :=
      st'.tokens ++ [⟨.NUMBER, value', tokenLine, tokenCol⟩] })

/-- Embeds `XdrLexer._try_number` (sign handling here, the rest in
`tryNumberScan`).  Returns `ok none` when no number token starts here;
in the minus-sign case the source rewinds `self.pos -= 1;
self.column -= 1`, restoring exactly the entry state, so `ok none` with
the caller retrying from the entry state is faithful. -/
def tryNumber (src : List Char) (fn : String) (cc : CharClass)
    (st : LexState) : LexRes (Option LexState) :=
  match currentChar src st with
  | none => .ok none
  | some char =>
    if ¬ (cc.isdigit char || char = '-') then .ok none
    else
      let tokenLine := st.line
      let tokenCol := st.column
      -- handle negative sign
      let signed : Option (String × LexState) :=
        if char = '-' then
          let st1 := (advance src st).2
          match currentChar src st1 with
          | some c2 => if cc.isdigit c2 then some (String.mk [char], st1) else none
          | none => none
        else some ("", st)
      match signed with
      | none => .ok none
      | some (value, st1) => tryNumberScan src fn cc tokenLine tokenCol value st1

/-- Identifier scanning loop of `XdrLexer._try_identifier_or_keyword`. -/
def scanIdentGo (src : List Char) (cc : CharClass) :
    Nat → String → LexState → LexRes (String × LexState)
  | 0, _, _ => .fuelOut
  | fuel + 1, value, st =>
    match currentChar src st with
    | some c =>
      if cc.isalnum c || c = '_' then
        scanIdentGo src cc fuel (value.push c) (advance src st).2
      else .ok (value, st)
    | none => .ok (value, st)

/-- Embeds `XdrLexer._try_identifier_or_keyword`. -/
def tryIdentifier (src : List Char) (cc : CharClass) (st : LexState) :
    LexRes (Option LexState) :=
  match currentChar src st with
  | none => .ok none
  | some char =>
    if ¬ (cc.isalpha char || char = '_') then .ok none
    else
      let tokenLine := st.line
      let tokenCol := st.column
      match scanIdentGo src cc (src.length + 1 - st.pos) "" st with
      | .err e => .err e
      | .fuelOut => .fuelOut
      | .ok (value, st') =>
        let ty : TokType := if value ∈ KEYWORDS then .KEYWORD else .IDENTIFIER
        .ok (some { st' with tokens :=
          st'.tokens ++ [⟨ty, value, tokenLine, tokenCol⟩] })

/-- Embeds `XdrLexer._try_preprocessor`: skip a whole `%`-line (its
skipping loop is the same code as `_skip_line_comment`'s). -/
def tryPreprocessor (src : List Char) (st : LexState) :
    LexRes (Option LexState) :=
  if currentChar src st ≠ some '%' then .ok none
  else
    match skipLineCommentGo src (src.length + 1 - st.pos) st with
    | .ok st' => .ok (some st')
    | .err e => .err e
    | .fuelOut => .fuelOut

/-- The main loop of `XdrLexer.tokenize`: skip whitespace/comments, then
try each token category in source order, raising on an unmatched
character; on loop exit append the single EOF token. -/
def tokenizeGo (src : List Char) (fn : String) (cc : CharClass) :
    Nat → LexState → LexRes (List Token)
  | 0, _ => .fuelOut
  | fuel + 1, st =>
    if st.pos < src.length then
      match skipWsAndCommentsGo src fn (src.length + 1 - st.pos) st with
      | .err e => .err e
      | .fuelOut => .fuelOut
      | .ok st1 =>
        if st1.pos < src.length then
          match trySymbol src st1 with
          | some st2 => tokenizeGo src fn cc fuel st2
          | none =>
            match tryNumber src fn cc st1 with
            | .err e => .err e
            | .fuelOut => .fuelOut
            | .ok (some st2) => tokenizeGo src fn cc fuel st2
            | .ok none =>
              match tryIdentifier src cc st1 with
              | .err e => .err e
              | .fuelOut => .fuelOut
              | .ok (some st2) => tokenizeGo src fn cc fuel st2
              | .ok none =>
                match tryPreprocessor src st1 with
                | .err e => .err e
                | .fuelOut => .fuelOut
                | .ok (some st2) => tokenizeGo src fn cc fuel st2
                | .ok none =>
                  match currentChar src st1 with
                  | some c => .err ⟨fn, st1.line, st1.column, .invalidChar c⟩
                  | none => .err ⟨fn, st1.line, st1.column, .invalidChar ' '⟩
        else
          .ok (st1.tokens ++ [⟨.EOF, "", st1.line, st1.column⟩])
    else
      .ok (st.tokens ++ [⟨.EOF, "", st.line, st.column⟩])

/-- Embeds `tokenize_xdr` / `XdrLexer.tokenize` with its canonical fuel. -/
def tokenize (cc : CharClass) (source : String) (fn : String) :
    LexRes (List Token) :=
  tokenizeGo source.data fn cc (source.data.length + 1) ⟨0, 1, 1, []⟩

/-! ## Theorems about the lexer -/

theorem currentChar_some_lt {src : List Char} {st : LexState} {c : Char}
    (h : currentChar src st = some c) : st.pos < src.length := by
  unfold currentChar at h
  exact (List.getElem?_eq_some.mp h).1

theorem advance_tokens (src : List Char) (st : LexState) :
    ((advance src st).2).tokens = st.tokens := by
  unfold advance
  cases h : src[st.pos]? with
  | none => rfl
  | some c => by_cases hc : c = '\n' <;> simp [hc]

theorem advance_pos_le (src : List Char) (st : LexState) :
    st.pos ≤ ((advance src st).2).pos := by
  unfold advance
  cases h : src[st.pos]? with
  | none => exact le_refl _
  | some c => by_cases hc : c = '\n' <;> simp [hc]

theorem advance_pos_succ {src : List Char} {st : LexState} {c : Char}
    (h : currentChar src st = some c) :
    ((advance src st).2).pos = st.pos + 1 := by
  unfold currentChar at h
  unfold advance
  rw [h]
  by_cases hc : c = '\n' <;> simp [hc]

/-- Tokens whose category is not EOF. -/
def EofFree (l : List Token) : Prop := ∀ t ∈ l, t.type ≠ .EOF

theorem skipLineCommentGo_spec (src : List Char) :
    ∀ fuel (st : LexState), src.length - st.pos < fuel →
      ∃ st', skipLineCommentGo src fuel st = .ok st' ∧
        st.pos ≤ st'.pos ∧ st'.tokens = st.tokens ∧
        (∀ c, currentChar src st = some c → st.pos < st'.pos) := by
  intro fuel
  induction fuel with
  | zero => intro st h; omega
  | succ fuel ih =>
    intro st h
    match hcur : currentChar src st with
    | none =>
      refine ⟨st, ?_, le_refl _, rfl, ?_⟩
      · unfold skipLineCommentGo
        rw [hcur]
      · intro c hc
        simp at hc
    | some c =>
      have hlt := currentChar_some_lt hcur
      have hsucc := advance_pos_succ hcur
      by_cases hc : c = '\n'
      · subst hc
        refine ⟨(advance src st).2, ?_, by omega, advance_tokens src st, ?_⟩
        · unfold skipLineCommentGo
          rw [hcur]
          simp
        · intro c' _
          omega
      · have h2 : src.length - ((advance src st).2).pos < fuel := by omega
        obtain ⟨st', heq, hle, htok, _⟩ := ih (advance src st).2 h2
        refine ⟨st', ?_, by omega, by rw [htok, advance_tokens], ?_⟩
        · unfold skipLineCommentGo
          rw [hcur]
          simp [hc, heq]
        · intro c' _
          omega

theorem peekChar_some_lt {src : List Char} {st : LexState} {c : Char}
    (h : peekChar src st = some c) : st.pos + 1 < src.length := by
  unfold peekChar at h
  exact (List.getElem?_eq_some.mp h).1

theorem currentChar_of_lt {src : List Char} {st : LexState}
    (h : st.pos < src.length) : currentChar src st = some src[st.pos] :=
  List.getElem?_eq_getElem h

theorem skipBlockCommentGo_spec (src : List Char) (fn : String) :
    ∀ fuel (st : LexState), src.length - st.pos < fuel →
      (∃ e, skipBlockCommentGo src fn fuel st = .err e) ∨
      (∃ st', skipBlockCommentGo src fn fuel st = .ok st' ∧
        st.pos ≤ st'.pos ∧ st'.tokens = st.tokens) := by
  intro fuel
  induction fuel with
  | zero => intro st h; omega
  | succ fuel ih =>
    intro st h
    by_cases hpos : st.pos < src.length
    · by_cases hstar : currentChar src st = some '*' ∧ peekChar src st = some '/'
      · right
        refine ⟨(advance src (advance src st).2).2, ?_, ?_, ?_⟩
        · unfold skipBlockCommentGo
          rw [if_pos hpos, if_pos hstar]
        · calc st.pos ≤ ((advance src st).2).pos := advance_pos_le src st
            _ ≤ _ := advance_pos_le src (advance src st).2
        · rw [advance_tokens, advance_tokens]
      · have hsucc := advance_pos_succ (currentChar_of_lt hpos)
        have h2 : src.length - ((advance src st).2).pos < fuel := by omega
        rcases ih (advance src st).2 h2 with ⟨e, he⟩ | ⟨st', heq, hle, htok⟩
        · left
          refine ⟨e, ?_⟩
          unfold skipBlockCommentGo
          rw [if_pos hpos, if_neg hstar]
          exact he
        · right
          refine ⟨st', ?_, by omega, by rw [htok, advance_tokens]⟩
          unfold skipBlockCommentGo
          rw [if_pos hpos, if_neg hstar]
          exact heq
    · left
      refine ⟨⟨fn, st.line, st.column, .unterminatedBlockComment⟩, ?_⟩
      unfold skipBlockCommentGo
      rw [if_neg hpos]

theorem skipBlockComment_spec (src : List Char) (fn : String) (st : LexState)
    (hc : currentChar src st = some '/') (hp : peekChar src st = some '*') :
    (∃ e, skipBlockComment src fn st = .err e) ∨
    (∃ st', skipBlockComment src fn st = .ok st' ∧
      st.pos < st'.pos ∧ st'.tokens = st.tokens) := by
  have h1 := advance_pos_succ hc
  have hp1 : st.pos + 1 < src.length := peekChar_some_lt hp
  have hc2 : currentChar src (advance src st).2 = some '*' := by
    unfold currentChar
    rw [h1]
    exact hp
  have h2 := advance_pos_succ hc2
  have hfuel : src.length - ((advance src (advance src st).2).2).pos <
      src.length + 1 - ((advance src (advance src st).2).2).pos := by
    omega
  rcases skipBlockCommentGo_spec src fn _ _ hfuel with ⟨e, he⟩ | ⟨st', heq, hle, htok⟩
  · left
    exact ⟨e, he⟩
  · right
    refine ⟨st', heq, by omega, by rw [htok, advance_tokens, advance_tokens]⟩

theorem skipWsAndCommentsGo_spec (src : List Char) (fn : String) :
    ∀ fuel (st : LexState), src.length - st.pos < fuel →
      (∃ e, skipWsAndCommentsGo src fn fuel st = .err e) ∨
      (∃ st', skipWsAndCommentsGo src fn fuel st = .ok st' ∧
        st.pos ≤ st'.pos ∧ st'.tokens = st.tokens) := by
  intro fuel
  induction fuel with
  | zero => intro st h; omega
  | succ fuel ih =>
    intro st h
    by_cases hpos : st.pos < src.length
    · have hcur := currentChar_of_lt hpos
      by_cases hws : src[st.pos] = ' ' ∨ src[st.pos] = '\t' ∨
          src[st.pos] = '\n' ∨ src[st.pos] = '\r'
      · have hsucc := advance_pos_succ hcur
        have h2 : src.length - ((advance src st).2).pos < fuel := by omega
        rcases ih (advance src st).2 h2 with ⟨e, he⟩ | ⟨st', heq, hle, htok⟩
        · left
          refine ⟨e, ?_⟩
          unfold skipWsAndCommentsGo
          rw [if_pos hpos, hcur]
          simp only [if_pos hws]
          exact he
        · right
          refine ⟨st', ?_, by omega, by rw [htok, advance_tokens]⟩
          unfold skipWsAndCommentsGo
          rw [if_pos hpos, hcur]
          simp only [if_pos hws]
          exact heq
      · by_cases hline : src[st.pos] = '/' ∧ peekChar src st = some '/'
        · have hfuel1 : src.length - st.pos < src.length + 1 - st.pos := by omega
          obtain ⟨st1, heq1, hle1, htok1, hstrict1⟩ :=
            skipLineCommentGo_spec src (src.length + 1 - st.pos) st hfuel1
          have hlt1 : st.pos < st1.pos := hstrict1 _ hcur
          have h2 : src.length - st1.pos < fuel := by omega
          rcases ih st1 h2 with ⟨e, he⟩ | ⟨st', heq, hle, htok⟩
          · left
            refine ⟨e, ?_⟩
            unfold skipWsAndCommentsGo
            rw [if_pos hpos, hcur]
            simp only [if_neg hws, if_pos hline, heq1]
            exact he
          · right
            refine ⟨st', ?_, by omega, by rw [htok, htok1]⟩
            unfold skipWsAndCommentsGo
            rw [if_pos hpos, hcur]
            simp only [if_neg hws, if_pos hline, heq1]
            exact heq
        · by_cases hblock : src[st.pos] = '/' ∧ peekChar src st = some '*'
          · have hcur' : currentChar src st = some '/' := by
              rw [hcur, hblock.1]
            rcases skipBlockComment_spec src fn st hcur' hblock.2 with
              ⟨e, he⟩ | ⟨st1, heq1, hlt1, htok1⟩
            · left
              refine ⟨e, ?_⟩
              unfold skipWsAndCommentsGo
              rw [if_pos hpos, hcur]
              simp only [if_neg hws, if_neg hline, if_pos hblock, he]
            · have h2 : src.length - st1.pos < fuel := by omega
              rcases ih st1 h2 with ⟨e, he⟩ | ⟨st', heq, hle, htok⟩
              · left
                refine ⟨e, ?_⟩
                unfold skipWsAndCommentsGo
                rw [if_pos hpos, hcur]
                simp only [if_neg hws, if_neg hline, if_pos hblock, heq1]
                exact he
              · right
                refine ⟨st', ?_, by omega, by rw [htok, htok1]⟩
                unfold skipWsAndCommentsGo
                rw [if_pos hpos, hcur]
                simp only [if_neg hws, if_neg hline, if_pos hblock, heq1]
                exact heq
          · right
            refine ⟨st, ?_, le_refl _, rfl⟩
            unfold skipWsAndCommentsGo
            rw [if_pos hpos, hcur]
            simp only [if_neg hws, if_neg hline, if_neg hblock]
    · right
      refine ⟨st, ?_, le_refl _, rfl⟩
      unfold skipWsAndCommentsGo
      rw [if_neg hpos]

theorem scanDecimalGo_spec (src : List Char) (cc : CharClass) :
    ∀ fuel (value : String) (st : LexState), src.length - st.pos < fuel →
      ∃ val' st', scanDecimalGo src cc fuel value st = .ok (val', st') ∧
        st.pos ≤ st'.pos ∧ st'.tokens = st.tokens ∧
        (∀ c, currentChar src st = some c → cc.isdigit c → st.pos < st'.pos) := by
  intro fuel
  induction fuel with
  | zero => intro v st h; omega
  | succ fuel ih =>
    intro v st h
    match hcur : currentChar src st with
    | none =>
      refine ⟨v, st, ?_, le_refl _, rfl, ?_⟩
      · unfold scanDecimalGo
        rw [hcur]
      · intro c hc
        simp at hc
    | some c =>
      have hlt := currentChar_some_lt hcur
      have hsucc := advance_pos_succ hcur
      by_cases hd : cc.isdigit c
      · have h2 : src.length - ((advance src st).2).pos < fuel := by omega
        obtain ⟨v', st', heq, hle, htok, _⟩ := ih (v.push c) (advance src st).2 h2
        refine ⟨v', st', ?_, by omega, by rw [htok, advance_tokens], ?_⟩
        · unfold scanDecimalGo
          rw [hcur]
          simp only [if_pos hd]
          exact heq
        · intro c' _ _
          omega
      · refine ⟨v, st, ?_, le_refl _, rfl, ?_⟩
        · unfold scanDecimalGo
          rw [hcur]
          simp only [if_neg hd]
        · intro c' hc' hd'
          obtain rfl := Option.some.inj hc'
          exact absurd hd' hd

theorem scanHexGo_spec (src : List Char) :
    ∀ fuel (value : String) (st : LexState), src.length - st.pos < fuel →
      ∃ val' st', scanHexGo src fuel value st = .ok (val', st') ∧
        st.pos ≤ st'.pos ∧ st'.tokens = st.tokens := by
  intro fuel
  induction fuel with
  | zero => intro v st h; omega
  | succ fuel ih =>
    intro v st h
    match hcur : currentChar src st with
    | none =>
      refine ⟨v, st, ?_, le_refl _, rfl⟩
      unfold scanHexGo
      rw [hcur]
    | some c =>
      have hlt := currentChar_some_lt hcur
      have hsucc := advance_pos_succ hcur
      by_cases hd : isHexDigit c
      · have h2 : src.length - ((advance src st).2).pos < fuel := by omega
        obtain ⟨v', st', heq, hle, htok⟩ := ih (v.push c) (advance src st).2 h2
        refine ⟨v', st', ?_, by omega, by rw [htok, advance_tokens]⟩
        unfold scanHexGo
        rw [hcur]
        simp only [if_pos hd]
        exact heq
      · refine ⟨v, st, ?_, le_refl _, rfl⟩
        unfold scanHexGo
        rw [hcur]
        simp only [if_neg hd]

theorem scanIdentGo_spec (src : List Char) (cc : CharClass) :
    ∀ fuel (value : String) (st : LexState), src.length - st.pos < fuel →
      ∃ val' st', scanIdentGo src cc fuel value st = .ok (val', st') ∧
        st.pos ≤ st'.pos ∧ st'.tokens = st.tokens ∧
        (∀ c, currentChar src st = some c → (cc.isalnum c || c = '_') = true →
          st.pos < st'.pos) := by
  intro fuel
  induction fuel with
  | zero => intro v st h; omega
  | succ fuel ih =>
    intro v st h
    match hcur : currentChar src st with
    | none =>
      refine ⟨v, st, ?_, le_refl _, rfl, ?_⟩
      · unfold scanIdentGo
        rw [hcur]
      · intro c hc
        simp at hc
    | some c =>
      have hlt := currentChar_some_lt hcur
      have hsucc := advance_pos_succ hcur
      by_cases hd : (cc.isalnum c || c = '_') = true
      · have h2 : src.length - ((advance src st).2).pos < fuel := by omega
        obtain ⟨v', st', heq, hle, htok, _⟩ := ih (v.push c) (advance src st).2 h2
        refine ⟨v', st', ?_, by omega, by rw [htok, advance_tokens], ?_⟩
        · unfold scanIdentGo
          rw [hcur]
          simp only [if_pos hd]
          exact heq
        · intro c' _ _
          omega
      · refine ⟨v, st, ?_, le_refl _, rfl, ?_⟩
        · unfold scanIdentGo
          rw [hcur]
          simp only [if_neg hd]
        · intro c' hc' hd'
          obtain rfl := Option.some.inj hc'
          exact absurd hd' hd

theorem trySymbol_spec (src : List Char) (st : LexState) :
    trySymbol src st = none ∨
    (∃ st' tok, trySymbol src st = some st' ∧ st.pos < st'.pos ∧
      st'.tokens = st.tokens ++ [tok] ∧ tok.type = .SYMBOL) := by
  match hcur : currentChar src st with
  | none =>
    left
    unfold trySymbol
    rw [hcur]
  | some c =>
    have hsucc := advance_pos_succ hcur
    by_cases hs : c ∈ SYMBOLS
    · right
      refine ⟨{ (advance src st).2 with tokens := ((advance src st).2).tokens ++
          [⟨.SYMBOL, String.mk [c], st.line, st.column⟩] },
        ⟨.SYMBOL, String.mk [c], st.line, st.column⟩, ?_, ?_, ?_, rfl⟩
      · unfold trySymbol
        rw [hcur]
        simp only [if_pos hs]
      · show st.pos < ((advance src st).2).pos
        omega
      · show ((advance src st).2).tokens ++ _ = _
        rw [advance_tokens]
    · left
      unfold trySymbol
      rw [hcur]
      simp only [if_neg hs]

theorem tryPreprocessor_spec (src : List Char) (st : LexState)
    (hpos : st.pos < src.length) :
    tryPreprocessor src st = .ok none ∨
    (∃ st', tryPreprocessor src st = .ok (some st') ∧ st.pos < st'.pos ∧
      st'.tokens = st.tokens) := by
  have hcur := currentChar_of_lt hpos
  by_cases hp : currentChar src st = some '%'
  · have hfuel : src.length - st.pos < src.length + 1 - st.pos := by omega
    obtain ⟨st', heq, hle, htok, hstrict⟩ :=
      skipLineCommentGo_spec src (src.length + 1 - st.pos) st hfuel
    right
    refine ⟨st', ?_, hstrict _ hp, htok⟩
    unfold tryPreprocessor
    rw [if_neg (by simp [hp]), heq]
  · left
    unfold tryPreprocessor
    rw [if_pos hp]

theorem tryNumberScan_spec (src : List Char) (fn : String) (cc : CharClass)
    (tl tc : Nat) (value : String) (st1 : LexState)
    (hdig : ∃ c0, currentChar src st1 = some c0 ∧ cc.isdigit c0 = true) :
    (∃ e, tryNumberScan src fn cc tl tc value st1 = .err e) ∨
    (∃ st' tok, tryNumberScan src fn cc tl tc value st1 = .ok (some st') ∧
      st1.pos < st'.pos ∧ st'.tokens = st1.tokens ++ [tok] ∧
      tok.type = .NUMBER) := by
  obtain ⟨c0, hcur0, hd0⟩ := hdig
  have hlt0 := currentChar_some_lt hcur0
  by_cases hhex : currentChar src st1 = some '0' ∧
      (peekChar src st1 = some 'x' ∨ peekChar src st1 = some 'X')
  · -- hexadecimal branch
    have hsucc1 := advance_pos_succ hhex.1
    have hpk : st1.pos + 1 < src.length := by
      rcases hhex.2 with h | h
      · exact peekChar_some_lt h
      · exact peekChar_some_lt h
    have hcur1 : currentChar src (advance src st1).2 = src[st1.pos + 1]? := by
      unfold currentChar
      rw [hsucc1]
    have hsucc2 : ((advance src (advance src st1).2).2).pos = st1.pos + 2 := by
      have : currentChar src (advance src st1).2 = some src[st1.pos + 1] := by
        rw [hcur1]
        exact List.getElem?_eq_getElem hpk
      rw [advance_pos_succ this, hsucc1]
    match hcur2 : currentChar src (advance src (advance src st1).2).2 with
    | none =>
      left
      refine ⟨⟨fn, tl, tc, .invalidHexNumber⟩, ?_⟩
      unfold tryNumberScan
      rw [if_pos hhex]
      simp only [hcur2]
    | some c =>
      by_cases hhd : isHexDigit c
      · right
        have hfuel : src.length - ((advance src (advance src st1).2).2).pos <
            src.length + 1 - ((advance src (advance src st1).2).2).pos := by
          have := currentChar_some_lt hcur2
          omega
        obtain ⟨v', st', heq, hle, htok⟩ := scanHexGo_spec src
          (src.length + 1 - ((advance src (advance src st1).2).2).pos)
          ((value.push (((advance src st1).1).getD '0')).push
            (((advance src (advance src st1).2).1).getD 'x'))
          ((advance src (advance src st1).2).2) hfuel
        refine ⟨{ st' with tokens := st'.tokens ++ [⟨.NUMBER, v', tl, tc⟩] },
          ⟨.NUMBER, v', tl, tc⟩, ?_, ?_, ?_, rfl⟩
        · unfold tryNumberScan
          rw [if_pos hhex]
          simp only [hcur2, if_pos hhd, heq]
        · show st1.pos < st'.pos
          omega
        · show st'.tokens ++ _ = _
          rw [htok, advance_tokens, advance_tokens]
      · left
        refine ⟨⟨fn, tl, tc, .invalidHexNumber⟩, ?_⟩
        unfold tryNumberScan
        rw [if_pos hhex]
        simp only [hcur2, if_neg hhd]
  · -- decimal branch
    right
    have hfuel : src.length - st1.pos < src.length + 1 - st1.pos := by omega
    obtain ⟨v', st', heq, hle, htok, hstrict⟩ :=
      scanDecimalGo_spec src cc _ value st1 hfuel
    refine ⟨{ st' with tokens := st'.tokens ++ [⟨.NUMBER, v', tl, tc⟩] },
      ⟨.NUMBER, v', tl, tc⟩, ?_, ?_, ?_, rfl⟩
    · unfold tryNumberScan
      rw [if_neg hhex]
      simp only [heq]
    · show st1.pos < st'.pos
      exact hstrict c0 hcur0 hd0
    · show st'.tokens ++ _ = _
      rw [htok]

theorem tryNumber_spec (src : List Char) (fn : String) (cc : CharClass)
    (st : LexState) :
    tryNumber src fn cc st = .ok none ∨
    (∃ e, tryNumber src fn cc st = .err e) ∨
    (∃ st' tok, tryNumber src fn cc st = .ok (some st') ∧ st.pos < st'.pos ∧
      st'.tokens = st.tokens ++ [tok] ∧ tok.type = .NUMBER) := by
  match hcur : currentChar src st with
  | none =>
    left
    unfold tryNumber
    rw [hcur]
  | some char =>
    by_cases hstart : (cc.isdigit char || char = '-') = true
    · by_cases hm : char = '-'
      · -- minus sign
        have hsucc := advance_pos_succ hcur
        match hcur2 : currentChar src (advance src st).2 with
        | none =>
          left
          unfold tryNumber
          rw [hcur]
          dsimp only
          subst hm
          rw [if_neg (by simp [hstart]), if_pos rfl, hcur2]
        | some c2 =>
          by_cases hd2 : cc.isdigit c2
          · have hspec := tryNumberScan_spec src fn cc st.line st.column
              (String.mk [char]) (advance src st).2 ⟨c2, hcur2, hd2⟩
            rcases hspec with ⟨e, he⟩ | ⟨st', tok, heq, hlt, htok, hty⟩
            · right; left
              refine ⟨e, ?_⟩
              unfold tryNumber
              rw [hcur]
              dsimp only
              subst hm
              rw [if_neg (by simp [hstart]), if_pos rfl, hcur2]
              dsimp only
              rw [if_pos hd2]
              exact he
            · right; right
              refine ⟨st', tok, ?_, by omega, by rw [htok, advance_tokens], hty⟩
              unfold tryNumber
              rw [hcur]
              dsimp only
              subst hm
              rw [if_neg (by simp [hstart]), if_pos rfl, hcur2]
              dsimp only
              rw [if_pos hd2]
              exact heq
          · left
            unfold tryNumber
            rw [hcur]
            dsimp only
            subst hm
            rw [if_neg (by simp [hstart]), if_pos rfl, hcur2]
            dsimp only
            rw [if_neg hd2]
      · -- plain digit
        have hd : cc.isdigit char = true := by
          rcases (by simpa using hstart : cc.isdigit char = true ∨ char = '-') with h | h
          · exact h
          · exact absurd h hm
        have hspec := tryNumberScan_spec src fn cc st.line st.column "" st
          ⟨char, hcur, hd⟩
        rcases hspec with ⟨e, he⟩ | ⟨st', tok, heq, hlt, htok, hty⟩
        · right; left
          refine ⟨e, ?_⟩
          unfold tryNumber
          rw [hcur]
          dsimp only
          rw [if_neg (by simp [hstart]), if_neg hm]
          exact he
        · right; right
          refine ⟨st', tok, ?_, hlt, htok, hty⟩
          unfold tryNumber
          rw [hcur]
          dsimp only
          rw [if_neg (by simp [hstart]), if_neg hm]
          exact heq
    · left
      unfold tryNumber
      rw [hcur]
      dsimp only
      rw [if_pos hstart]

theorem tryIdentifier_spec (src : List Char) (cc : CharClass) (st : LexState)
    (hcc : ∀ c, cc.isalpha c = true → cc.isalnum c = true) :
    tryIdentifier src cc st = .ok none ∨
    (∃ st' tok, tryIdentifier src cc st = .ok (some st') ∧ st.pos < st'.pos ∧
      st'.tokens = st.tokens ++ [tok] ∧
      (tok.type = .KEYWORD ∨ tok.type = .IDENTIFIER)) := by
  match hcur : currentChar src st with
  | none =>
    left
    unfold tryIdentifier
    rw [hcur]
  | some c =>
    by_cases ha : (cc.isalpha c || c = '_') = true
    · right
      have hlt := currentChar_some_lt hcur
      have hfuel : src.length - st.pos < src.length + 1 - st.pos := by omega
      obtain ⟨v', st', heq, hle, htok, hstrict⟩ :=
        scanIdentGo_spec src cc _ "" st hfuel
      have hpred : (cc.isalnum c || c = '_') = true := by
        rcases (by simpa using ha : cc.isalpha c = true ∨ c = '_') with h | h
        · simp [hcc c h]
        · simp [h]
      refine ⟨{ st' with tokens := st'.tokens ++
          [⟨if v' ∈ KEYWORDS then .KEYWORD else .IDENTIFIER, v', st.line, st.column⟩] },
        ⟨if v' ∈ KEYWORDS then .KEYWORD else .IDENTIFIER, v', st.line, st.column⟩,
        ?_, hstrict c hcur hpred, ?_, ?_⟩
      · unfold tryIdentifier
        rw [hcur]
        dsimp only
        rw [if_neg (not_not_intro ha), heq]
      · show st'.tokens ++ _ = _
        rw [htok]
      · by_cases hk : v' ∈ KEYWORDS
        · exact Or.inl (by simp [hk])
        · exact Or.inr (by simp [hk])
    · left
      unfold tryIdentifier
      rw [hcur]
      dsimp only
      rw [if_pos ha]

theorem EofFree.push {l : List Token} {t : Token} (h : EofFree l)
    (ht : t.type ≠ .EOF) : EofFree (l ++ [t]) := by
  intro u hu
  rcases List.mem_append.mp hu with h' | h'
  · exact h u h'
  · rcases List.mem_singleton.mp h' with rfl
    exact ht

theorem tokenizeGo_spec (src : List Char) (fn : String) (cc : CharClass)
    (hcc : ∀ c, cc.isalpha c = true → cc.isalnum c = true) :
    ∀ fuel (st : LexState), src.length - st.pos < fuel → EofFree st.tokens →
      (∃ e, tokenizeGo src fn cc fuel st = .err e) ∨
      (∃ pre tok, tokenizeGo src fn cc fuel st = .ok (pre ++ [tok]) ∧
        tok.type = .EOF ∧ EofFree pre) := by
  intro fuel
  induction fuel with
  | zero => intro st h; omega
  | succ fuel ih =>
    intro st h hfree
    by_cases hpos : st.pos < src.length
    · have hwsfuel : src.length - st.pos < src.length + 1 - st.pos := by omega
      rcases skipWsAndCommentsGo_spec src fn (src.length + 1 - st.pos) st hwsfuel with
        ⟨e, hws⟩ | ⟨st1, hws, hle1, htok1⟩
      · left
        refine ⟨e, ?_⟩
        unfold tokenizeGo
        rw [if_pos hpos, hws]
      · have hfree1 : EofFree st1.tokens := htok1 ▸ hfree
        by_cases hpos1 : st1.pos < src.length
        · rcases trySymbol_spec src st1 with hsym | ⟨st2, tok2, hsym, hlt2, htok2, hty2⟩
          · -- symbol did not match; try number
            rcases tryNumber_spec src fn cc st1 with hnum | ⟨e, hnum⟩ |
              ⟨st2, tok2, hnum, hlt2, htok2, hty2⟩
            · -- number did not match; try identifier
              rcases tryIdentifier_spec src cc st1 hcc with hid |
                ⟨st2, tok2, hid, hlt2, htok2, hty2⟩
              · -- identifier did not match; try preprocessor
                rcases tryPreprocessor_spec src st1 hpos1 with hpp |
                  ⟨st2, hpp, hlt2, htok2⟩
                · -- nothing matched: invalid character
                  left
                  refine ⟨⟨fn, st1.line, st1.column, .invalidChar src[st1.pos]⟩, ?_⟩
                  unfold tokenizeGo
                  rw [if_pos hpos, hws]
                  dsimp only
                  rw [if_pos hpos1, hsym]
                  dsimp only
                  rw [hnum]
                  dsimp only
                  rw [hid]
                  dsimp only
                  rw [hpp]
                  dsimp only
                  rw [currentChar_of_lt hpos1]
                · -- preprocessor matched
                  have h2 : src.length - st2.pos < fuel := by omega
                  have hfree2 : EofFree st2.tokens := htok2 ▸ hfree1
                  rcases ih st2 h2 hfree2 with ⟨e, hgo⟩ | ⟨pre, tokE, hgo, htyE, hpre⟩
                  · left
                    refine ⟨e, ?_⟩
                    unfold tokenizeGo
                    rw [if_pos hpos, hws]
                    dsimp only
                    rw [if_pos hpos1, hsym]
                    dsimp only
                    rw [hnum]
                    dsimp only
                    rw [hid]
                    dsimp only
                    rw [hpp]
                    exact hgo
                  · right
                    refine ⟨pre, tokE, ?_, htyE, hpre⟩
                    unfold tokenizeGo
                    rw [if_pos hpos, hws]
                    dsimp only
                    rw [if_pos hpos1, hsym]
                    dsimp only
                    rw [hnum]
                    dsimp only
                    rw [hid]
                    dsimp only
                    rw [hpp]
                    exact hgo
              · -- identifier matched
                have h2 : src.length - st2.pos < fuel := by omega
                have hfree2 : EofFree st2.tokens := by
                  rw [htok2]
                  refine (htok1 ▸ hfree).push ?_
                  rcases hty2 with h' | h' <;> simp [h']
                rcases ih st2 h2 hfree2 with ⟨e, hgo⟩ | ⟨pre, tokE, hgo, htyE, hpre⟩
                · left
                  refine ⟨e, ?_⟩
                  unfold tokenizeGo
                  rw [if_pos hpos, hws]
                  dsimp only
                  rw [if_pos hpos1, hsym]
                  dsimp only
                  rw [hnum]
                  dsimp only
                  rw [hid]
                  exact hgo
                · right
                  refine ⟨pre, tokE, ?_, htyE, hpre⟩
                  unfold tokenizeGo
                  rw [if_pos hpos, hws]
                  dsimp only
                  rw [if_pos hpos1, hsym]
                  dsimp only
                  rw [hnum]
                  dsimp only
                  rw [hid]
                  exact hgo
            · -- number raised
              left
              refine ⟨e, ?_⟩
              unfold tokenizeGo
              rw [if_pos hpos, hws]
              dsimp only
              rw [if_pos hpos1, hsym]
              dsimp only
              rw [hnum]
            · -- number matched
              have h2 : src.length - st2.pos < fuel := by omega
              have hfree2 : EofFree st2.tokens := by
                rw [htok2]
                exact (htok1 ▸ hfree).push (by simp [hty2])
              rcases ih st2 h2 hfree2 with ⟨e, hgo⟩ | ⟨pre, tokE, hgo, htyE, hpre⟩
              · left
                refine ⟨e, ?_⟩
                unfold tokenizeGo
                rw [if_pos hpos, hws]
                dsimp only
                rw [if_pos hpos1, hsym]
                dsimp only
                rw [hnum]
                exact hgo
              · right
                refine ⟨pre, tokE, ?_, htyE, hpre⟩
                unfold tokenizeGo
                rw [if_pos hpos, hws]
                dsimp only
                rw [if_pos hpos1, hsym]
                dsimp only
                rw [hnum]
                exact hgo
          · -- symbol matched
            have h2 : src.length - st2.pos < fuel := by omega
            have hfree2 : EofFree st2.tokens := by
              rw [htok2]
              exact (htok1 ▸ hfree).push (by simp [hty2])
            rcases ih st2 h2 hfree2 with ⟨e, hgo⟩ | ⟨pre, tokE, hgo, htyE, hpre⟩
            · left
              refine ⟨e, ?_⟩
              unfold tokenizeGo
              rw [if_pos hpos, hws]
              dsimp only
              rw [if_pos hpos1, hsym]
              exact hgo
            · right
              refine ⟨pre, tokE, ?_, htyE, hpre⟩
              unfold tokenizeGo
              rw [if_pos hpos, hws]
              dsimp only
              rw [if_pos hpos1, hsym]
              exact hgo
        · -- skip consumed the rest of the input: emit EOF
          right
          refine ⟨st1.tokens, ⟨.EOF, "", st1.line, st1.column⟩, ?_, rfl, hfree1⟩
          unfold tokenizeGo
          rw [if_pos hpos, hws]
          dsimp only
          rw [if_neg hpos1]
    · right
      refine ⟨st.tokens, ⟨.EOF, "", st.line, st.column⟩, ?_, rfl, hfree⟩
      unfold tokenizeGo
      rw [if_neg hpos]

/-- C10: `tokenize` terminates on every finite input — every iteration of
its main loop either strictly advances the scan position or raises (in
particular the minus-sign rewind restores the entry state exactly and is
followed, within the same iteration, by failing identifier/preprocessor
attempts and the invalid-character raise) — and on success the returned
token list ends with exactly one EOF token.  Formally: with its canonical
fuel the embedding never exhausts fuel, and every `ok` result is a list
of non-EOF tokens followed by a single final EOF token.  The character
predicates are arbitrary, assuming only Python's guarantee that letters
are alphanumeric. -/
theorem tokenize_terminates_with_single_eof (cc : CharClass)
    (hcc : ∀ c, cc.isalpha c = true → cc.isalnum c = true)
    (source : String) (fn : String) :
    (∃ e, tokenize cc source fn = .err e) ∨
    (∃ pre tok, tokenize cc source fn = .ok (pre ++ [tok]) ∧
      tok.type = .EOF ∧ ∀ t ∈ pre, t.type ≠ .EOF) := by
  have h := tokenizeGo_spec source.data fn cc hcc (source.data.length + 1)
    ⟨0, 1, 1, []⟩ (by omega) (by intro t ht; simp at ht)
  exact h

/-- Witness for C10 at a concrete source text with the ASCII character
predicates (for which letters are indeed alphanumeric). -/
theorem tokenize_terminates_with_single_eof_witness :
    (∃ e, tokenize asciiCC "const MAX = 0x10; // done" "w.x" = .err e) ∨
    (∃ pre tok, tokenize asciiCC "const MAX = 0x10; // done" "w.x" = .ok (pre ++ [tok]) ∧
      tok.type = .EOF ∧ ∀ t ∈ pre, t.type ≠ .EOF) :=
  tokenize_terminates_with_single_eof asciiCC
    (fun c h => by simp [asciiCC] at h ⊢; simp [Char.isAlphanum, h])
    "const MAX = 0x10; // done" "w.x"

/-! ## Parser (xdr_parser.py)

The recursive-descent parser is embedded as a family of fuel-indexed
functions over a parser state that carries the token list, the position,
and the `XdrFile` under construction (Python's `self.current_file`,
mutated in place by the top-level loop and by the inline-type
registration helpers).  Python exceptions other than `XdrParseError`
(such as the `ValueError` that `int()` raises) appear as the distinguished
`otherExn` outcome. -/

/-- Python `int(s)` with base 10, restricted to ASCII digit strings with
an optional leading minus; `none` models the `ValueError` raise.  (Python
additionally accepts a leading `+`, surrounding whitespace, underscore
separators and non-ASCII decimal digits, none of which occur in the
ASCII token values evaluated here; in particular Python, like this
model, rejects `-0x1` in base 10.) -/
def pyIntBase10 (s : String) : Option Int :=
  let digitsVal : List Char → Int :=
    fun l => l.foldl (fun acc c => acc * 10 + (Int.ofNat (c.toNat - '0'.toNat))) 0
  match s.data with
  | '-' :: rest =>
    if rest ≠ [] ∧ rest.all Char.isDigit then some (-(digitsVal rest)) else none
  | l => if l ≠ [] ∧ l.all Char.isDigit then some (digitsVal l) else none

/-- Python `int(s, 16)` restricted to the `0x`/`0X`-prefixed strings the
lexer produces in the hex branch; `none` models the `ValueError` raise. -/
def pyIntBase16 (s : String) : Option Int :=
  let hexVal : List Char → Int :=
    fun l => l.foldl (fun acc c =>
      acc * 16 + (Int.ofNat (
        if c.isDigit then c.toNat - '0'.toNat
        else if 'a' ≤ c ∧ c ≤ 'f' then c.toNat - 'a'.toNat + 10
        else c.toNat - 'A'.toNat + 10))) 0
  match s.data with
  | '0' :: x :: rest =>
    if (x = 'x' ∨ x = 'X') ∧ rest ≠ [] ∧ rest.all isHexDigit then
      some (hexVal rest)
    else none
  | _ => none

/-- Decimal digit expansion of a natural number (auxiliary for
`pyIntToString`). -/
def natDigits : Nat → Nat → List Char
  | 0, _ => []
  | fuel + 1, n =>
    if n < 10 then [Char.ofNat ('0'.toNat + n)]
    else natDigits fuel (n / 10) ++ [Char.ofNat ('0'.toNat + n % 10)]

/-- Python `str(i)` for an integer: decimal representation with a leading
minus for negatives. -/
def pyIntToString (i : Int) : String :=
  if i < 0 then String.mk ('-' :: natDigits (i.natAbs + 1) i.natAbs)
  else String.mk (natDigits (i.toNat + 1) i.toNat)

/-- Python does-the-string-start-with test over code points. -/
def strStartsWith (s pre : String) : Bool :=
  pre.data.isPrefixOf s.data

/-- PascalCase conversion used for synthesized inline type names:
`field_name[0].upper() + field_name[1:]` (ASCII uppercasing; Python
uppercases beyond ASCII, which no identifier evaluated here uses). -/
def pascalCase (s : String) : String :=
  match s.data with
  | [] => s
  | c :: rest => String.mk (c.toUpper :: rest)

/-- The grammar-violation categories of `XdrParseError` messages. -/
inductive PErrKind where
  | unexpectedToken (ty : TokType) (value : String)
  | expectedKeyword (kw : String)
  | expectedSymbol (s : String)
  | expectedIdentifier
  | expectedNumber
  | expectedIntOrHyperAfterUnsigned
deriving DecidableEq, Repr

/-- Parser outcome: a raised `XdrParseError`, a non-`XdrParseError`
Python exception (`otherExn`, e.g. the `ValueError` raised by `int()`),
or loop-fuel exhaustion. -/
inductive PErr where
  | parseError (filename : String) (line col : Nat) (kind : PErrKind)
  | otherExn
  | fuelOut
deriving DecidableEq, Repr

/-- Parser state: the token stream and filename (immutable), `self.pos`,
and `self.current_file` — the `XdrFile` being built, which the
registration helpers and the top-level loop mutate. -/
structure PState where
  tokens : List Token
  filename : String
  pos : Nat
  file : XdrFile

/-- Embeds `XdrParser._current`: the token at `self.pos`, or
`self.tokens[-1]` past the end.  (On an empty token list Python would
raise IndexError; the lexer always produces at least the EOF token, so
the default below is unreachable from the entry point.) -/
def pCurrent (st : PState) : Token :=
  if h : st.pos < st.tokens.length then st.tokens[st.pos]
  else st.tokens.getLastD ⟨.EOF, "", 0, 0⟩

/-- Embeds `XdrParser._advance`: return the current token and step
forward unless already at the last token. -/
def pAdvance (st : PState) : Token × PState :=
  (pCurrent st,
    if st.pos < st.tokens.length - 1 then { st with pos := st.pos + 1 } else st)

/-- Embeds `XdrParser._at_end`. -/
def pAtEnd (st : PState) : Bool :=
  (pCurrent st).type = .EOF

/-- Embeds `XdrParser._check_keyword`. -/
def checkKeyword (kw : String) (st : PState) : Bool :=
  (pCurrent st).type = .KEYWORD ∧ (pCurrent st).value = kw

/-- Embeds `XdrParser._check_symbol`. -/
def checkSymbol (s : String) (st : PState) : Bool :=
  (pCurrent st).type = .SYMBOL ∧ (pCurrent st).value = s

/-- Embeds `XdrParser._consume_keyword`. -/
def consumeKeyword (kw : String) (st : PState) :
    Except PErr (String × PState) :=
  let t := pCurrent st
  if t.type = .KEYWORD ∧ t.value = kw then .ok (kw, (pAdvance st).2)
  else .error (.parseError st.filename t.line t.column (.expectedKeyword kw))

/-- Embeds `XdrParser._consume_symbol`. -/
def consumeSymbol (s : String) (st : PState) :
    Except PErr (String × PState) :=
  let t := pCurrent st
  if t.type = .SYMBOL ∧ t.value = s then .ok (s, (pAdvance st).2)
  else .error (.parseError st.filename t.line t.column (.expectedSymbol s))

/-- Embeds `XdrParser._consume_identifier`. -/
def consumeIdentifier (st : PState) : Except PErr (String × PState) :=
  let t := pCurrent st
  if t.type = .IDENTIFIER then .ok (t.value, (pAdvance st).2)
  else .error (.parseError st.filename t.line t.column .expectedIdentifier)

/-- Embeds `XdrParser._parse_number`: a NUMBER token converted with
Python `int` (base 16 for a `0x`/`0X` prefix, else base 10).  A NUMBER
token that `int` rejects — e.g. `-0x1`, which the lexer happily produces —
raises `ValueError`, embedded as `otherExn`. -/
def pParseNumber (st : PState) : Except PErr (Int × PState) :=
  let t := pCurrent st
  if t.type = .NUMBER then
    let st' := (pAdvance st).2
    if strStartsWith t.value "0x" || strStartsWith t.value "0X" then
      match pyIntBase16 t.value with
      | some n => .ok (n, st')
      | none => .error .otherExn
    else
      match pyIntBase10 t.value with
      | some n => .ok (n, st')
      | none => .error .otherExn
  else .error (.parseError st.filename t.line t.column .expectedNumber)

/-- Embeds `XdrParser._parse_type`. -/
def parseType (st : PState) : Except PErr (String × PState) :=
  if checkKeyword "unsigned" st then
    let st1 := (pAdvance st).2
    if checkKeyword "int" st1 then .ok ("uint32", (pAdvance st1).2)
    else if checkKeyword "hyper" st1 then .ok ("uint64", (pAdvance st1).2)
    else .error (.parseError st1.filename (pCurrent st1).line (pCurrent st1).column
      .expectedIntOrHyperAfterUnsigned)
  else if checkKeyword "int" st then .ok ("int32", (pAdvance st).2)
  else if checkKeyword "hyper" st then .ok ("int64", (pAdvance st).2)
  else if checkKeyword "string" st then .ok ("string", (pAdvance st).2)
  else if checkKeyword "opaque" st then .ok ("opaque", (pAdvance st).2)
  else if checkKeyword "bool" st then .ok ("bool", (pAdvance st).2)
  else consumeIdentifier st

/-- Embeds `XdrParser._parse_namespace`. -/
def parseNamespaceDecl (st : PState) : Except PErr (String × PState) :=
  match consumeKeyword "namespace" st with
  | .error e => .error e
  | .ok (_, st1) =>
    match consumeIdentifier st1 with
    | .error e => .error e
    | .ok (name, st2) =>
      match consumeSymbol "\x7b" st2 with
      | .error e => .error e
      | .ok (_, st3) => .ok (name, st3)

/-- Embeds `XdrParser._parse_const`. -/
def parseConst (st : PState) : Except PErr (XdrConstant × PState) :=
  let line := (pCurrent st).line
  match consumeKeyword "const" st with
  | .error e => .error e
  | .ok (_, st1) =>
    match consumeIdentifier st1 with
    | .error e => .error e
    | .ok (name, st2) =>
      match consumeSymbol "=" st2 with
      | .error e => .error e
      | .ok (_, st3) =>
        match pParseNumber st3 with
        | .error e => .error e
        | .ok (value, st4) =>
          match consumeSymbol ";" st4 with
          | .error e => .error e
          | .ok (_, st5) => .ok (⟨name, value, line⟩, st5)

/-- Embeds `XdrParser._parse_typedef`. -/
def parseTypedef (st : PState) : Except PErr (XdrTypedef × PState) :=
  let line := (pCurrent st).line
  match consumeKeyword "typedef" st with
  | .error e => .error e
  | .ok (_, st1) =>
    -- determine the underlying type and the opaque/string flags
    let special : Except PErr ((String × Bool × Bool) × PState) :=
      if checkKeyword "opaque" st1 then .ok (("opaque", true, false), (pAdvance st1).2)
      else if checkKeyword "string" st1 then .ok (("string", false, true), (pAdvance st1).2)
      else if checkKeyword "unsigned" st1 then
        let st2 := (pAdvance st1).2
        if checkKeyword "int" st2 then .ok (("uint32", false, false), (pAdvance st2).2)
        else if checkKeyword "hyper" st2 then .ok (("uint64", false, false), (pAdvance st2).2)
        else .error (.parseError st2.filename (pCurrent st2).line (pCurrent st2).column
          .expectedIntOrHyperAfterUnsigned)
      else if checkKeyword "int" st1 then .ok (("int32", false, false), (pAdvance st1).2)
      else if checkKeyword "hyper" st1 then .ok (("int64", false, false), (pAdvance st1).2)
      else
        match consumeIdentifier st1 with
        | .error e => .error e
        | .ok (t, st2) => .ok ((t, false, false), st2)
    match special with
    | .error e => .error e
    | .ok ((underlying, is_opaque, is_string), st2) =>
      -- optional pointer (*)
      let (is_optional, st3) :=
        if checkSymbol "*" st2 then (true, (pAdvance st2).2) else (false, st2)
      match consumeIdentifier st3 with
      | .error e => .error e
      | .ok (name, st4) =>
        -- array/size specifiers
        let sized : Except PErr ((Option Int × Option String × Bool × Bool) × PState) :=
          if checkSymbol "[" st4 then
            let st5 := (pAdvance st4).2
            let szres : Except PErr ((Option Int × Option String) × PState) :=
              if (pCurrent st5).type = .NUMBER then
                match pParseNumber st5 with
                | .error e => .error e
                | .ok (n, st6) => .ok ((some n, none), st6)
              else
                match consumeIdentifier st5 with
                | .error e => .error e
                | .ok (r, st6) => .ok ((none, some r), st6)
            match szres with
            | .error e => .error e
            | .ok ((sz, szr), st6) =>
              match consumeSymbol "]" st6 with
              | .error e => .error e
              | .ok (_, st7) => .ok ((sz, szr, false, true), st7)
          else if checkSymbol "<" st4 then
            let st5 := (pAdvance st4).2
            let szres : Except PErr ((Option Int × Option String) × PState) :=
              if ¬ checkSymbol ">" st5 then
                if (pCurrent st5).type = .NUMBER then
                  match pParseNumber st5 with
                  | .error e => .error e
                  | .ok (n, st6) => .ok ((some n, none), st6)
                else
                  match consumeIdentifier st5 with
                  | .error e => .error e
                  | .ok (r, st6) => .ok ((none, some r), st6)
              else .ok ((none, none), st5)
            match szres with
            | .error e => .error e
            | .ok ((sz, szr), st6) =>
              match consumeSymbol ">" st6 with
              | .error e => .error e
              | .ok (_, st7) => .ok ((sz, szr, true, false), st7)
          else .ok ((none, none, false, false), st4)
        match sized with
        | .error e => .error e
        | .ok ((size, size_ref, is_variable, is_fixed), st5) =>
          match consumeSymbol ";" st5 with
          | .error e => .error e
          | .ok (_, st6) =>
            let underlying' := if is_optional then underlying ++ "*" else underlying
            .ok (⟨name, underlying', is_opaque, is_string, size, size_ref,
              is_variable, is_fixed, line⟩, st6)

/-- The enum-value loop of `XdrParser._parse_enum`. -/
def parseEnumValuesGo : Nat → List XdrEnumValue → PState →
    Except PErr (List XdrEnumValue × PState)
  | 0, _, _ => .error .fuelOut
  | fuel + 1, acc, st =>
    if ¬ checkSymbol "\x7d" st then
      let value_line := (pCurrent st).line
      match consumeIdentifier st with
      | .error e => .error e
      | .ok (value_name, st1) =>
        match consumeSymbol "=" st1 with
        | .error e => .error e
        | .ok (_, st2) =>
          let valres : Except PErr ((Option Int × Option String) × PState) :=
            if (pCurrent st2).type = .NUMBER then
              match pParseNumber st2 with
              | .error e => .error e
              | .ok (n, st3) => .ok ((some n, none), st3)
            else
              match consumeIdentifier st2 with
              | .error e => .error e
              | .ok (r, st3) => .ok ((none, some r), st3)
          match valres with
          | .error e => .error e
          | .ok ((value_int, value_ref), st3) =>
            let acc' := acc ++ [⟨value_name, value_int, value_ref, value_line⟩]
            let st4 := if checkSymbol "," st3 then (pAdvance st3).2 else st3
            parseEnumValuesGo fuel acc' st4
    else .ok (acc, st)

/-- Embeds `XdrParser._parse_enum`. -/
def parseEnum (fuel : Nat) (st : PState) : Except PErr (XdrEnum × PState) :=
  let line := (pCurrent st).line
  match consumeKeyword "enum" st with
  | .error e => .error e
  | .ok (_, st1) =>
    match consumeIdentifier st1 with
    | .error e => .error e
    | .ok (name, st2) =>
      match consumeSymbol "\x7b" st2 with
      | .error e => .error e
      | .ok (_, st3) =>
        match parseEnumValuesGo fuel [] st3 with
        | .error e => .error e
        | .ok (values, st4) =>
          match consumeSymbol "\x7d" st4 with
          | .error e => .error e
          | .ok (_, st5) =>
            match consumeSymbol ";" st5 with
            | .error e => .error e
            | .ok (_, st6) => .ok (⟨name, values, line⟩, st6)

/-- Case-label collection loop of `XdrParser._parse_union_case`. -/
def collectCaseLabelsGo : Nat → List String → Bool → PState →
    Except PErr ((List String × Bool) × PState)
  | 0, _, _, _ => .error .fuelOut
  | fuel + 1, acc, isDefault, st =>
    if checkKeyword "case" st || checkKeyword "default" st then
      if checkKeyword "default" st then
        let st1 := (pAdvance st).2
        match consumeSymbol ":" st1 with
        | .error e => .error e
        | .ok (_, st2) =>
          collectCaseLabelsGo fuel (acc ++ ["default"]) true st2
      else
        match consumeKeyword "case" st with
        | .error e => .error e
        | .ok (_, st1) =>
          let labres : Except PErr (String × PState) :=
            if (pCurrent st1).type = .NUMBER then
              match pParseNumber st1 with
              | .error e => .error e
              | .ok (n, st2) => .ok (pyIntToString n, st2)
            else consumeIdentifier st1
          match labres with
          | .error e => .error e
          | .ok (lab, st2) =>
            match consumeSymbol ":" st2 with
            | .error e => .error e
            | .ok (_, st3) =>
              collectCaseLabelsGo fuel (acc ++ [lab]) isDefault st3
    else .ok ((acc, isDefault), st)

/-- The peek-ahead brace-skipping loop shared by
`_parse_inline_struct_field` and `_parse_anonymous_union_field`:
advance past the matching closing brace (or to the end of the stream). -/
def skipBracesGo : Nat → Nat → PState → Except PErr PState
  | 0, _, _ => .error .fuelOut
  | fuel + 1, count, st =>
    if count > 0 ∧ ¬ pAtEnd st then
      let count' :=
        if checkSymbol "\x7b" st then count + 1
        else if checkSymbol "\x7d" st then count - 1
        else count
      skipBracesGo fuel count' (pAdvance st).2
    else .ok st

/-- Truthiness of the optional parent-name argument (`if parent_struct_name:`
— false for both `None` and the empty string). -/
def parentTruthy : Option String → Bool
  | none => false
  | some s => ¬ s.isEmpty

/-- The array-specifier block of `XdrParser._parse_field` (the
`[`/`<`/plain alternatives, including the `string<N>`-is-not-an-array
classification): returns `(is_fixed_array, is_variable_array,
array_size, array_size_ref, max_length)` and the rest state. -/
def parseFieldFlags (type_name : String) (st3 : PState) :
    Except PErr ((Bool × Bool × Option Int × Option String ×
      Option Int) × PState) :=
  if checkSymbol "[" st3 then
    let st4 := (pAdvance st3).2
    let szres : Except PErr ((Option Int × Option String) × PState) :=
      if (pCurrent st4).type = .NUMBER then
        match pParseNumber st4 with
        | .error e => .error e
        | .ok (n, st5) => .ok ((some n, none), st5)
      else
        match consumeIdentifier st4 with
        | .error e => .error e
        | .ok (r, st5) => .ok ((none, some r), st5)
    match szres with
    | .error e => .error e
    | .ok ((sz, szr), st5) =>
      match consumeSymbol "]" st5 with
      | .error e => .error e
      | .ok (_, st6) => .ok ((true, false, sz, szr, none), st6)
  else if checkSymbol "<" st3 then
    let st4 := (pAdvance st3).2
    let szres : Except PErr ((Option Int × Option String) × PState) :=
      if ¬ checkSymbol ">" st4 then
        if (pCurrent st4).type = .NUMBER then
          match pParseNumber st4 with
          | .error e => .error e
          | .ok (n, st5) => .ok ((some n, none), st5)
        else
          match consumeIdentifier st4 with
          | .error e => .error e
          | .ok (r, st5) => .ok ((none, some r), st5)
      else .ok ((none, none), st4)
    match szres with
    | .error e => .error e
    | .ok ((sz, szr), st5) =>
      match consumeSymbol ">" st5 with
      | .error e => .error e
      | .ok (_, st6) =>
        -- string<N> is NOT an array; anything else is a variable array
        if type_name = "string" then
          .ok ((false, false, none, szr, sz), st6)
        else
          .ok ((false, true, sz, szr, none), st6)
  else .ok ((false, false, none, none, none), st3)

mutual

/-- Embeds `XdrParser._parse_field` (dispatching to
`_parse_anonymous_union_field` on a leading `union` keyword; the array
specifiers are handled by `parseFieldFlags`). -/
def parseField : Nat → Option String → PState → Except PErr (XdrField × PState)
  | 0, _, _ => .error .fuelOut
  | fuel + 1, parent, st =>
    let line := (pCurrent st).line
    if checkKeyword "union" st then parseAnonymousUnionField fuel parent st
    else
      match parseType st with
      | .error e => .error e
      | .ok (type_name, st1) =>
        let is_optional := checkSymbol "*" st1
        let st2 := if checkSymbol "*" st1 then (pAdvance st1).2 else st1
        match consumeIdentifier st2 with
        | .error e => .error e
        | .ok (field_name, st3) =>
          match parseFieldFlags type_name st3 with
          | .error e => .error e
          | .ok ((is_fixed_array, is_variable_array, array_size,
              array_size_ref, max_length), st4) =>
            match consumeSymbol ";" st4 with
            | .error e => .error e
            | .ok (_, st5) =>
              .ok (.mk field_name type_name is_optional is_variable_array
                is_fixed_array array_size array_size_ref max_length
                none none none line, st5)

/-- Embeds `XdrParser._parse_anonymous_union_field`: peek past the
matching brace for the field name, synthesize the union name from the
parent context, parse the cases under that name, register the synthetic
union into the current file, and rewrite the field's type to the new
name. -/
def parseAnonymousUnionField : Nat → Option String → PState →
    Except PErr (XdrField × PState)
  | 0, _, _ => .error .fuelOut
  | fuel + 1, parent, st =>
    let line := (pCurrent st).line
    match consumeKeyword "union" st with
    | .error e => .error e
    | .ok (_, st1) =>
      match consumeKeyword "switch" st1 with
      | .error e => .error e
      | .ok (_, st2) =>
        match consumeSymbol "(" st2 with
        | .error e => .error e
        | .ok (_, st3) =>
          let discres : Except PErr (String × PState) :=
            if checkKeyword "int" st3 then .ok ("int", (pAdvance st3).2)
            else consumeIdentifier st3
          match discres with
          | .error e => .error e
          | .ok (discriminant_type, st4) =>
            match consumeIdentifier st4 with
            | .error e => .error e
            | .ok (discriminant_name, st5) =>
              match consumeSymbol ")" st5 with
              | .error e => .error e
              | .ok (_, st6) =>
                match consumeSymbol "\x7b" st6 with
                | .error e => .error e
                | .ok (_, stBody) =>
                  -- peek ahead past the matching brace for the field name,
                  -- then restore the position (`self.pos = saved_pos`)
                  match skipBracesGo fuel 1 stBody with
                  | .error e => .error e
                  | .ok stSkip =>
                    match consumeIdentifier stSkip with
                    | .error e => .error e
                    | .ok (field_name, _) =>
                      let union_name :=
                        if parentTruthy parent then
                          (parent.getD "") ++ pascalCase field_name
                        else "__anon_union_" ++ field_name
                      match parseUnionCasesGo fuel union_name [] stBody with
                      | .error e => .error e
                      | .ok (cases, st7) =>
                        match consumeSymbol "\x7d" st7 with
                        | .error e => .error e
                        | .ok (_, st8) =>
                          match consumeIdentifier st8 with
                          | .error e => .error e
                          | .ok (_, st9) =>
                            match consumeSymbol ";" st9 with
                            | .error e => .error e
                            | .ok (_, st10) =>
                              let synthetic : XdrUnion := .mk union_name
                                discriminant_name discriminant_type cases line
                              -- _register_inline_union
                              let st11 := { st10 with file :=
                                { st10.file with unions :=
                                    st10.file.unions ++ [synthetic] } }
                              .ok (.mk field_name union_name false false false
                                none none none none (some synthetic) none line,
                                st11)

/-- Embeds `XdrParser._parse_inline_struct_field`: the struct analogue of
`parseAnonymousUnionField`. -/
def parseInlineStructField : Nat → Option String → PState →
    Except PErr (XdrField × PState)
  | 0, _, _ => .error .fuelOut
  | fuel + 1, parent, st =>
    let line := (pCurrent st).line
    match consumeKeyword "struct" st with
    | .error e => .error e
    | .ok (_, st1) =>
      match consumeSymbol "\x7b" st1 with
      | .error e => .error e
      | .ok (_, stBody) =>
        match skipBracesGo fuel 1 stBody with
        | .error e => .error e
        | .ok stSkip =>
          match consumeIdentifier stSkip with
          | .error e => .error e
          | .ok (field_name, _) =>
            let struct_name :=
              if parentTruthy parent then
                (parent.getD "") ++ pascalCase field_name
              else "__anon_struct_" ++ field_name
            match parseFieldsLoop fuel struct_name [] stBody with
            | .error e => .error e
            | .ok (inline_fields, st2) =>
              match consumeSymbol "\x7d" st2 with
              | .error e => .error e
              | .ok (_, st3) =>
                match consumeIdentifier st3 with
                | .error e => .error e
                | .ok (_, st4) =>
                  match consumeSymbol ";" st4 with
                  | .error e => .error e
                  | .ok (_, st5) =>
                    let synthetic : XdrStruct := .mk struct_name inline_fields line
                    -- _register_inline_struct
                    let st6 := { st5 with file :=
                      { st5.file with structs :=
                          st5.file.structs ++ [synthetic] } }
                    .ok (.mk field_name struct_name false false false
                      none none none (some inline_fields) none (some synthetic)
                      line, st6)

/-- Embeds `XdrParser._parse_union_case`. -/
def parseUnionCase : Nat → Option String → PState →
    Except PErr (XdrUnionCase × PState)
  | 0, _, _ => .error .fuelOut
  | fuel + 1, parent, st =>
    let case_line := (pCurrent st).line
    match collectCaseLabelsGo (fuel + 1) [] false st with
    | .error e => .error e
    | .ok ((case_values, is_default), st1) =>
      let fieldres : Except PErr (Option XdrField × PState) :=
        if checkKeyword "void" st1 then
          let st2 := (pAdvance st1).2
          match consumeSymbol ";" st2 with
          | .error e => .error e
          | .ok (_, st3) => .ok (none, st3)
        else if checkKeyword "struct" st1 then
          match parseInlineStructField fuel parent st1 with
          | .error e => .error e
          | .ok (f, st2) => .ok (some f, st2)
        else
          match parseField fuel parent st1 with
          | .error e => .error e
          | .ok (f, st2) => .ok (some f, st2)
      match fieldres with
      | .error e => .error e
      | .ok (field, st2) =>
        .ok (.mk case_values field is_default case_line, st2)

/-- The `while not '\x7d'` field loop of `_parse_struct` (the identical
loop in `_parse_inline_struct_field` reuses this embedding). -/
def parseFieldsLoop : Nat → String → List XdrField → PState →
    Except PErr (List XdrField × PState)
  | 0, _, _, _ => .error .fuelOut
  | fuel + 1, parentName, acc, st =>
    if ¬ checkSymbol "\x7d" st then
      match parseField fuel (some parentName) st with
      | .error e => .error e
      | .ok (f, st1) => parseFieldsLoop fuel parentName (acc ++ [f]) st1
    else .ok (acc, st)

/-- The `while not '\x7d'` case loop of `_parse_union` (the identical
loop in `_parse_anonymous_union_field` reuses this embedding). -/
def parseUnionCasesGo : Nat → String → List XdrUnionCase → PState →
    Except PErr (List XdrUnionCase × PState)
  | 0, _, _, _ => .error .fuelOut
  | fuel + 1, parentName, acc, st =>
    if ¬ checkSymbol "\x7d" st then
      match parseUnionCase fuel (some parentName) st with
      | .error e => .error e
      | .ok (c, st1) => parseUnionCasesGo fuel parentName (acc ++ [c]) st1
    else .ok (acc, st)

end

/-- Embeds `XdrParser._parse_struct`. -/
def parseStruct (fuel : Nat) (st : PState) : Except PErr (XdrStruct × PState) :=
  let line := (pCurrent st).line
  match consumeKeyword "struct" st with
  | .error e => .error e
  | .ok (_, st1) =>
    match consumeIdentifier st1 with
    | .error e => .error e
    | .ok (name, st2) =>
      match consumeSymbol "\x7b" st2 with
      | .error e => .error e
      | .ok (_, st3) =>
        match parseFieldsLoop fuel name [] st3 with
        | .error e => .error e
        | .ok (fields, st4) =>
          match consumeSymbol "\x7d" st4 with
          | .error e => .error e
          | .ok (_, st5) =>
            match consumeSymbol ";" st5 with
            | .error e => .error e
            | .ok (_, st6) => .ok (.mk name fields line, st6)

/-- Embeds `XdrParser._parse_union` (named or anonymous). -/
def parseUnion (fuel : Nat) (st : PState) : Except PErr (XdrUnion × PState) :=
  let line := (pCurrent st).line
  match consumeKeyword "union" st with
  | .error e => .error e
  | .ok (_, st1) =>
    let nameres : Except PErr (String × PState) :=
      if (pCurrent st1).type = .IDENTIFIER then consumeIdentifier st1
      else .ok ("", st1)
    match nameres with
    | .error e => .error e
    | .ok (name, st2) =>
      match consumeKeyword "switch" st2 with
      | .error e => .error e
      | .ok (_, st3) =>
        match consumeSymbol "(" st3 with
        | .error e => .error e
        | .ok (_, st4) =>
          let discres : Except PErr (String × PState) :=
            if checkKeyword "int" st4 then .ok ("int", (pAdvance st4).2)
            else consumeIdentifier st4
          match discres with
          | .error e => .error e
          | .ok (discriminant_type, st5) =>
            match consumeIdentifier st5 with
            | .error e => .error e
            | .ok (discriminant_name, st6) =>
              match consumeSymbol ")" st6 with
              | .error e => .error e
              | .ok (_, st7) =>
                match consumeSymbol "\x7b" st7 with
                | .error e => .error e
                | .ok (_, st8) =>
                  match parseUnionCasesGo fuel name [] st8 with
                  | .error e => .error e
                  | .ok (cases, st9) =>
                    match consumeSymbol "\x7d" st9 with
                    | .error e => .error e
                    | .ok (_, st10) =>
                      match consumeSymbol ";" st10 with
                      | .error e => .error e
                      | .ok (_, st11) =>
                        .ok (.mk name discriminant_name discriminant_type
                          cases line, st11)

/-- The definition loop of `XdrParser.parse`.  Each parsed definition is
appended to the corresponding collection of `st.file` (which inline-type
registration may already have extended during the definition's parse). -/
def parseTopGo : Nat → PState → Except PErr PState
  | 0, _ => .error .fuelOut
  | fuel + 1, st =>
    if ¬ pAtEnd st then
      if checkSymbol ";" st then parseTopGo fuel (pAdvance st).2
      else if checkKeyword "const" st then
        match parseConst st with
        | .error e => .error e
        | .ok (c, st1) =>
          parseTopGo fuel { st1 with file :=
            { st1.file with constants := st1.file.constants ++ [c] } }
      else if checkKeyword "typedef" st then
        match parseTypedef st with
        | .error e => .error e
        | .ok (t, st1) =>
          parseTopGo fuel { st1 with file :=
            { st1.file with typedefs := st1.file.typedefs ++ [t] } }
      else if checkKeyword "enum" st then
        match parseEnum fuel st with
        | .error e => .error e
        | .ok (en, st1) =>
          parseTopGo fuel { st1 with file :=
            { st1.file with enums := st1.file.enums ++ [en] } }
      else if checkKeyword "struct" st then
        match parseStruct fuel st with
        | .error e => .error e
        | .ok (s, st1) =>
          parseTopGo fuel { st1 with file :=
            { st1.file with structs := st1.file.structs ++ [s] } }
      else if checkKeyword "union" st then
        match parseUnion fuel st with
        | .error e => .error e
        | .ok (u, st1) =>
          parseTopGo fuel { st1 with file :=
            { st1.file with unions := st1.file.unions ++ [u] } }
      else if checkSymbol "\x7d" st then
        -- end of namespace
        match consumeSymbol "\x7d" st with
        | .error e => .error e
        | .ok (_, st1) =>
          let st2 := if checkSymbol ";" st1 then (pAdvance st1).2 else st1
          .ok st2
      else
        .error (.parseError st.filename (pCurrent st).line (pCurrent st).column
          (.unexpectedToken (pCurrent st).type (pCurrent st).value))
    else .ok st

/-- Embeds `XdrParser.parse`: optional namespace header, then the
definition loop; returns the accumulated `XdrFile`. -/
def parseTokens (fuel : Nat) (tokens : List Token) (filename : String) :
    Except PErr XdrFile :=
  let st0 : PState := ⟨tokens, filename, 0, { filename := filename }⟩
  let nsres : Except PErr PState :=
    if checkKeyword "namespace" st0 then
      match parseNamespaceDecl st0 with
      | .error e => .error e
      | .ok (name, st1) =>
        .ok { st1 with file := { st1.file with namespaceName := some name } }
    else .ok st0
  match nsres with
  | .error e => .error e
  | .ok st1 =>
    match parseTopGo fuel st1 with
    | .error e => .error e
    | .ok st2 => .ok st2.file

/-- Combined outcome of `parse_xdr_content` (lexing then parsing). -/
inductive XdrResult where
  | ok (f : XdrFile)
  | lexError (e : LexError)
  | parseError (filename : String) (line col : Nat) (kind : PErrKind)
  | otherExn
  | fuelOut

/-- Embeds `parse_xdr_content`: tokenize, then parse. -/
def parseXdrContent (cc : CharClass) (content : String) (filename : String) :
    XdrResult :=
  match tokenize cc content filename with
  | .err e => .lexError e
  | .fuelOut => .fuelOut
  | .ok ts =>
    match parseTokens ((ts.length + 1) * (ts.length + 1)) ts filename with
    | .ok f => .ok f
    | .error (.parseError f l c k) => .parseError f l c k
    | .error .otherExn => .otherExn
    | .error .fuelOut => .fuelOut


theorem pAdvance_file (st : PState) : ((pAdvance st).2).file = st.file := by
  unfold pAdvance
  split <;> rfl

theorem consumeKeyword_file {kw : String} {st : PState} {a : String}
    {st' : PState} (h : consumeKeyword kw st = .ok (a, st')) :
    st'.file = st.file := by
  unfold consumeKeyword at h
  dsimp only at h
  split at h
  · cases h
    exact pAdvance_file st
  · cases h

theorem consumeSymbol_file {s : String} {st : PState} {a : String}
    {st' : PState} (h : consumeSymbol s st = .ok (a, st')) :
    st'.file = st.file := by
  unfold consumeSymbol at h
  dsimp only at h
  split at h
  · cases h
    exact pAdvance_file st
  · cases h

theorem consumeIdentifier_file {st : PState} {a : String}
    {st' : PState} (h : consumeIdentifier st = .ok (a, st')) :
    st'.file = st.file := by
  unfold consumeIdentifier at h
  dsimp only at h
  split at h
  · cases h
    exact pAdvance_file st
  · cases h

theorem pParseNumber_file {st : PState} {n : Int}
    {st' : PState} (h : pParseNumber st = .ok (n, st')) :
    st'.file = st.file := by
  unfold pParseNumber at h
  dsimp only at h
  split at h
  · split at h <;> split at h <;> cases h <;> exact pAdvance_file st
  · cases h

theorem parseType_file {st : PState} {t : String}
    {st' : PState} (h : parseType st = .ok (t, st')) :
    st'.file = st.file := by
  unfold parseType at h
  split at h
  · dsimp only at h
    split at h
    · cases h
      rw [pAdvance_file, pAdvance_file]
    · split at h
      · cases h
        rw [pAdvance_file, pAdvance_file]
      · cases h
  · split at h
    · cases h
      exact pAdvance_file st
    · split at h
      · cases h
        exact pAdvance_file st
      · split at h
        · cases h
          exact pAdvance_file st
        · split at h
          · cases h
            exact pAdvance_file st
          · split at h
            · cases h
              exact pAdvance_file st
            · exact consumeIdentifier_file h

theorem parseFieldFlags_file {tn : String} {st3 : PState} {r}
    (h : parseFieldFlags tn st3 = .ok r) : r.2.file = st3.file := by
  unfold parseFieldFlags at h
  dsimp only at h
  by_cases h1 : checkSymbol "[" st3 = true
  · rw [if_pos h1] at h
    by_cases h2 : (pCurrent (pAdvance st3).2).type = .NUMBER
    · rw [if_pos h2] at h
      match h3 : pParseNumber (pAdvance st3).2 with
      | .error e =>
        rw [h3] at h
        cases h
      | .ok (n, st5) =>
        rw [h3] at h
        dsimp only at h
        match h4 : consumeSymbol "]" st5 with
        | .error e =>
          rw [h4] at h
          cases h
        | .ok (a, st6) =>
          rw [h4] at h
          dsimp only at h
          cases h
          rw [consumeSymbol_file h4, pParseNumber_file h3, pAdvance_file]
    · rw [if_neg h2] at h
      match h3 : consumeIdentifier (pAdvance st3).2 with
      | .error e =>
        rw [h3] at h
        cases h
      | .ok (rr, st5) =>
        rw [h3] at h
        dsimp only at h
        match h4 : consumeSymbol "]" st5 with
        | .error e =>
          rw [h4] at h
          cases h
        | .ok (a, st6) =>
          rw [h4] at h
          dsimp only at h
          cases h
          rw [consumeSymbol_file h4, consumeIdentifier_file h3, pAdvance_file]
  · rw [if_neg h1] at h
    by_cases h5 : checkSymbol "<" st3 = true
    · rw [if_pos h5] at h
      by_cases h6 : checkSymbol ">" (pAdvance st3).2 = true
      · rw [if_neg (not_not_intro h6)] at h
        dsimp only at h
        match h7 : consumeSymbol ">" (pAdvance st3).2 with
        | .error e =>
          rw [h7] at h
          cases h
        | .ok (a, st6) =>
          rw [h7] at h
          dsimp only at h
          by_cases h8 : tn = "string"
          · rw [if_pos h8] at h
            cases h
            rw [consumeSymbol_file h7, pAdvance_file]
          · rw [if_neg h8] at h
            cases h
            rw [consumeSymbol_file h7, pAdvance_file]
      · rw [if_pos h6] at h
        by_cases h9 : (pCurrent (pAdvance st3).2).type = .NUMBER
        · rw [if_pos h9] at h
          match h3 : pParseNumber (pAdvance st3).2 with
          | .error e =>
            rw [h3] at h
            cases h
          | .ok (n, st5) =>
            rw [h3] at h
            dsimp only at h
            match h7 : consumeSymbol ">" st5 with
            | .error e =>
              rw [h7] at h
              cases h
            | .ok (a, st6) =>
              rw [h7] at h
              dsimp only at h
              by_cases h8 : tn = "string"
              · rw [if_pos h8] at h
                cases h
                rw [consumeSymbol_file h7, pParseNumber_file h3, pAdvance_file]
              · rw [if_neg h8] at h
                cases h
                rw [consumeSymbol_file h7, pParseNumber_file h3, pAdvance_file]
        · rw [if_neg h9] at h
          match h3 : consumeIdentifier (pAdvance st3).2 with
          | .error e =>
            rw [h3] at h
            cases h
          | .ok (rr, st5) =>
            rw [h3] at h
            dsimp only at h
            match h7 : consumeSymbol ">" st5 with
            | .error e =>
              rw [h7] at h
              cases h
            | .ok (a, st6) =>
              rw [h7] at h
              dsimp only at h
              by_cases h8 : tn = "string"
              · rw [if_pos h8] at h
                cases h
                rw [consumeSymbol_file h7, consumeIdentifier_file h3, pAdvance_file]
              · rw [if_neg h8] at h
                cases h
                rw [consumeSymbol_file h7, consumeIdentifier_file h3, pAdvance_file]
    · rw [if_neg h5] at h
      cases h
      rfl

theorem skipBracesGo_file :
    ∀ {fuel count : Nat} {st st' : PState}
      (_ : skipBracesGo fuel count st = .ok st'),
      st'.file = st.file := by
  intro fuel
  induction fuel with
  | zero =>
    intro count st st' h
    cases h
  | succ fuel ih =>
    intro count st st' h
    unfold skipBracesGo at h
    dsimp only at h
    split at h
    · rw [ih h, pAdvance_file]
    · cases h
      rfl

theorem collectCaseLabelsGo_file :
    ∀ {fuel : Nat} {acc : List String} {isDef : Bool} {st : PState} {r}
      (_ : collectCaseLabelsGo fuel acc isDef st = .ok r),
      r.2.file = st.file := by
  intro fuel
  induction fuel with
  | zero =>
    intro acc isDef st r h
    cases h
  | succ fuel ih =>
    intro acc isDef st r h
    unfold collectCaseLabelsGo at h
    dsimp only at h
    by_cases h1 : (checkKeyword "case" st || checkKeyword "default" st) = true
    · rw [if_pos h1] at h
      by_cases h2 : checkKeyword "default" st = true
      · rw [if_pos h2] at h
        match h3 : consumeSymbol ":" (pAdvance st).2 with
        | .error e =>
          rw [h3] at h
          cases h
        | .ok (a, st2) =>
          rw [h3] at h
          dsimp only at h
          rw [ih h, consumeSymbol_file h3, pAdvance_file]
      · rw [if_neg h2] at h
        match h3 : consumeKeyword "case" st with
        | .error e =>
          rw [h3] at h
          cases h
        | .ok (a, st1) =>
          rw [h3] at h
          dsimp only at h
          by_cases h4 : (pCurrent st1).type = .NUMBER
          · rw [if_pos h4] at h
            match h5 : pParseNumber st1 with
            | .error e =>
              rw [h5] at h
              cases h
            | .ok (n, st2) =>
              rw [h5] at h
              dsimp only at h
              match h6 : consumeSymbol ":" st2 with
              | .error e =>
                rw [h6] at h
                cases h
              | .ok (b, st3) =>
                rw [h6] at h
                dsimp only at h
                rw [ih h, consumeSymbol_file h6, pParseNumber_file h5,
                  consumeKeyword_file h3]
          · rw [if_neg h4] at h
            match h5 : consumeIdentifier st1 with
            | .error e =>
              rw [h5] at h
              cases h
            | .ok (lab, st2) =>
              rw [h5] at h
              dsimp only at h
              match h6 : consumeSymbol ":" st2 with
              | .error e =>
                rw [h6] at h
                cases h
              | .ok (b, st3) =>
                rw [h6] at h
                dsimp only at h
                rw [ih h, consumeSymbol_file h6, consumeIdentifier_file h5,
                  consumeKeyword_file h3]
    · rw [if_neg h1] at h
      cases h
      rfl

/-- The registration effect of a parser step: the current file's structs
and unions may only be extended (by appending synthesized inline types),
never rewritten or truncated. -/
def RegExtends (st st' : PState) : Prop :=
  (∃ l, st'.file.structs = st.file.structs ++ l) ∧
  (∃ l, st'.file.unions = st.file.unions ++ l)

theorem RegExtends.of_file_eq {st st' : PState} (h : st'.file = st.file) :
    RegExtends st st' :=
  ⟨⟨[], by rw [h, List.append_nil]⟩, ⟨[], by rw [h, List.append_nil]⟩⟩

theorem RegExtends.trans' {a b c : PState}
    (h1 : RegExtends a b) (h2 : RegExtends b c) : RegExtends a c := by
  obtain ⟨⟨l1, hs1⟩, ⟨m1, hu1⟩⟩ := h1
  obtain ⟨⟨l2, hs2⟩, ⟨m2, hu2⟩⟩ := h2
  exact ⟨⟨l1 ++ l2, by rw [hs2, hs1, List.append_assoc]⟩,
    ⟨m1 ++ m2, by rw [hu2, hu1, List.append_assoc]⟩⟩

theorem parseMutual_mono : ∀ fuel : Nat,
    (∀ p st r, parseField fuel p st = .ok r → RegExtends st r.2) ∧
    (∀ p st r, parseAnonymousUnionField fuel p st = .ok r → RegExtends st r.2) ∧
    (∀ p st r, parseInlineStructField fuel p st = .ok r → RegExtends st r.2) ∧
    (∀ p st r, parseUnionCase fuel p st = .ok r → RegExtends st r.2) ∧
    (∀ n acc st r, parseFieldsLoop fuel n acc st = .ok r → RegExtends st r.2) ∧
    (∀ n acc st r, parseUnionCasesGo fuel n acc st = .ok r → RegExtends st r.2) := by
  intro fuel
  induction fuel with
  | zero =>
    refine ⟨?_, ?_, ?_, ?_, ?_, ?_⟩
    · intro p st r h
      cases h
    · intro p st r h
      cases h
    · intro p st r h
      cases h
    · intro p st r h
      cases h
    · intro n acc st r h
      cases h
    · intro n acc st r h
      cases h
  | succ fuel ih =>
    obtain ⟨ihF, ihA, ihI, ihC, ihFL, ihCL⟩ := ih
    have hIf : ∀ st1 : PState,
        ((if checkSymbol "*" st1 = true then (pAdvance st1).2 else st1)).file =
          st1.file := by
      intro st1
      split
      · exact pAdvance_file st1
      · rfl
    refine ⟨?_, ?_, ?_, ?_, ?_, ?_⟩
    · -- parseField
      intro p st r h
      unfold parseField at h
      dsimp only at h
      by_cases hU : checkKeyword "union" st = true
      · rw [if_pos hU] at h
        exact ihA p st r h
      · rw [if_neg hU] at h
        match h1 : parseType st with
        | .error e =>
          rw [h1] at h
          cases h
        | .ok (tn, st1) =>
          rw [h1] at h
          dsimp only at h
          by_cases hopt : checkSymbol "*" st1 = true
          · rw [if_pos hopt] at h
            match h2 : consumeIdentifier (pAdvance st1).2 with
            | .error e =>
              rw [h2] at h
              cases h
            | .ok (fn, st3) =>
              rw [h2] at h
              dsimp only at h
              match h3 : parseFieldFlags tn st3 with
              | .error e =>
                rw [h3] at h
                cases h
              | .ok ((f1, f2, f3, f4, f5), st4) =>
                rw [h3] at h
                dsimp only at h
                match h4 : consumeSymbol ";" st4 with
                | .error e =>
                  rw [h4] at h
                  cases h
                | .ok (x, st5) =>
                  rw [h4] at h
                  dsimp only at h
                  cases h
                  apply RegExtends.of_file_eq
                  show st5.file = st.file
                  rw [consumeSymbol_file h4, parseFieldFlags_file h3,
                    consumeIdentifier_file h2, pAdvance_file,
                    parseType_file h1]
          · rw [if_neg hopt] at h
            match h2 : consumeIdentifier st1 with
            | .error e =>
              rw [h2] at h
              cases h
            | .ok (fn, st3) =>
              rw [h2] at h
              dsimp only at h
              match h3 : parseFieldFlags tn st3 with
              | .error e =>
                rw [h3] at h
                cases h
              | .ok ((f1, f2, f3, f4, f5), st4) =>
                rw [h3] at h
                dsimp only at h
                match h4 : consumeSymbol ";" st4 with
                | .error e =>
                  rw [h4] at h
                  cases h
                | .ok (x, st5) =>
                  rw [h4] at h
                  dsimp only at h
                  cases h
                  apply RegExtends.of_file_eq
                  show st5.file = st.file
                  rw [consumeSymbol_file h4, parseFieldFlags_file h3,
                    consumeIdentifier_file h2, parseType_file h1]
    · -- parseAnonymousUnionField
      intro p st r h
      unfold parseAnonymousUnionField at h
      dsimp only at h
      match hk1 : consumeKeyword "union" st with
      | .error e =>
        rw [hk1] at h
        cases h
      | .ok (a1, st1) =>
        rw [hk1] at h
        dsimp only at h
        match hk2 : consumeKeyword "switch" st1 with
        | .error e =>
          rw [hk2] at h
          cases h
        | .ok (a2, st2) =>
          rw [hk2] at h
          dsimp only at h
          match hk3 : consumeSymbol "(" st2 with
          | .error e =>
            rw [hk3] at h
            cases h
          | .ok (a3, st3) =>
            rw [hk3] at h
            dsimp only at h
            have hdisc : ∀ dt st4, (if checkKeyword "int" st3 = true
                  then Except.ok ("int", (pAdvance st3).2)
                  else consumeIdentifier st3) = .ok (dt, st4) →
                st4.file = st3.file := by
              intro dt st4 hd
              split at hd
              · cases hd
                exact pAdvance_file st3
              · exact consumeIdentifier_file hd
            match hd : (if checkKeyword "int" st3 = true
                then Except.ok ("int", (pAdvance st3).2)
                else consumeIdentifier st3) with
            | .error e =>
              rw [hd] at h
              cases h
            | .ok (dt, st4) =>
              rw [hd] at h
              dsimp only at h
              match hk4 : consumeIdentifier st4 with
              | .error e =>
                rw [hk4] at h
                cases h
              | .ok (dn, st5) =>
                rw [hk4] at h
                dsimp only at h
                match hk5 : consumeSymbol ")" st5 with
                | .error e =>
                  rw [hk5] at h
                  cases h
                | .ok (a5, st6) =>
                  rw [hk5] at h
                  dsimp only at h
                  match hk6 : consumeSymbol "\x7b" st6 with
                  | .error e =>
                    rw [hk6] at h
                    cases h
                  | .ok (a6, stBody) =>
                    rw [hk6] at h
                    dsimp only at h
                    match hsk : skipBracesGo fuel 1 stBody with
                    | .error e =>
                      rw [hsk] at h
                      cases h
                    | .ok stSkip =>
                      rw [hsk] at h
                      dsimp only at h
                      match hfn : consumeIdentifier stSkip with
                      | .error e =>
                        rw [hfn] at h
                        cases h
                      | .ok (fn, stPeek) =>
                        rw [hfn] at h
                        dsimp only at h
                        match hC : parseUnionCasesGo fuel
                            (if parentTruthy p = true
                              then (p.getD "") ++ pascalCase fn
                              else "__anon_union_" ++ fn) [] stBody with
                        | .error e =>
                          rw [hC] at h
                          cases h
                        | .ok (cs, st7) =>
                          rw [hC] at h
                          dsimp only at h
                          match hk7 : consumeSymbol "\x7d" st7 with
                          | .error e =>
                            rw [hk7] at h
                            cases h
                          | .ok (a7, st8) =>
                            rw [hk7] at h
                            dsimp only at h
                            match hk8 : consumeIdentifier st8 with
                            | .error e =>
                              rw [hk8] at h
                              cases h
                            | .ok (a8, st9) =>
                              rw [hk8] at h
                              dsimp only at h
                              match hk9 : consumeSymbol ";" st9 with
                              | .error e =>
                                rw [hk9] at h
                                cases h
                              | .ok (a9, st10) =>
                                rw [hk9] at h
                                dsimp only at h
                                cases h
                                have hpre : st.file = stBody.file := by
                                  rw [consumeSymbol_file hk6,
                                    consumeSymbol_file hk5,
                                    consumeIdentifier_file hk4,
                                    hdisc dt st4 hd,
                                    consumeSymbol_file hk3,
                                    consumeKeyword_file hk2,
                                    consumeKeyword_file hk1]
                                have hmid : RegExtends stBody st7 :=
                                  ihCL _ _ _ _ hC
                                have hpost : st10.file = st7.file := by
                                  rw [consumeSymbol_file hk9,
                                    consumeIdentifier_file hk8,
                                    consumeSymbol_file hk7]
                                refine RegExtends.trans'
                                  (RegExtends.of_file_eq hpre.symm)
                                  (RegExtends.trans' hmid ?_)
                                constructor
                                · exact ⟨[], by dsimp only; rw [hpost, List.append_nil]⟩
                                · exact ⟨_, by dsimp only; rw [hpost]⟩
    · -- parseInlineStructField
      intro p st r h
      unfold parseInlineStructField at h
      dsimp only at h
      match hk1 : consumeKeyword "struct" st with
      | .error e =>
        rw [hk1] at h
        cases h
      | .ok (a1, st1) =>
        rw [hk1] at h
        dsimp only at h
        match hk2 : consumeSymbol "\x7b" st1 with
        | .error e =>
          rw [hk2] at h
          cases h
        | .ok (a2, stBody) =>
          rw [hk2] at h
          dsimp only at h
          match hsk : skipBracesGo fuel 1 stBody with
          | .error e =>
            rw [hsk] at h
            cases h
          | .ok stSkip =>
            rw [hsk] at h
            dsimp only at h
            match hfn : consumeIdentifier stSkip with
            | .error e =>
              rw [hfn] at h
              cases h
            | .ok (fn, stPeek) =>
              rw [hfn] at h
              dsimp only at h
              match hC : parseFieldsLoop fuel
                  (if parentTruthy p = true
                    then (p.getD "") ++ pascalCase fn
                    else "__anon_struct_" ++ fn) [] stBody with
              | .error e =>
                rw [hC] at h
                cases h
              | .ok (fs, st2) =>
                rw [hC] at h
                dsimp only at h
                match hk7 : consumeSymbol "\x7d" st2 with
                | .error e =>
                  rw [hk7] at h
                  cases h
                | .ok (a7, st3) =>
                  rw [hk7] at h
                  dsimp only at h
                  match hk8 : consumeIdentifier st3 with
                  | .error e =>
                    rw [hk8] at h
                    cases h
                  | .ok (a8, st4) =>
                    rw [hk8] at h
                    dsimp only at h
                    match hk9 : consumeSymbol ";" st4 with
                    | .error e =>
                      rw [hk9] at h
                      cases h
                    | .ok (a9, st5) =>
                      rw [hk9] at h
                      dsimp only at h
                      cases h
                      have hpre : st.file = stBody.file := by
                        rw [consumeSymbol_file hk2, consumeKeyword_file hk1]
                      have hmid : RegExtends stBody st2 :=
                        ihFL _ _ _ _ hC
                      have hpost : st5.file = st2.file := by
                        rw [consumeSymbol_file hk9,
                          consumeIdentifier_file hk8,
                          consumeSymbol_file hk7]
                      refine RegExtends.trans'
                        (RegExtends.of_file_eq hpre.symm)
                        (RegExtends.trans' hmid ?_)
                      constructor
                      · exact ⟨_, by dsimp only; rw [hpost]⟩
                      · exact ⟨[], by dsimp only; rw [hpost, List.append_nil]⟩
    · -- parseUnionCase
      intro p st r h
      unfold parseUnionCase at h
      dsimp only at h
      match hL : collectCaseLabelsGo (fuel + 1) [] false st with
      | .error e =>
        rw [hL] at h
        cases h
      | .ok ((cvs, isDef), st1) =>
        rw [hL] at h
        dsimp only at h
        have hfile1 : st1.file = st.file := collectCaseLabelsGo_file hL
        by_cases hv : checkKeyword "void" st1 = true
        · rw [if_pos hv] at h
          match hk : consumeSymbol ";" (pAdvance st1).2 with
          | .error e =>
            rw [hk] at h
            cases h
          | .ok (a, st3) =>
            rw [hk] at h
            dsimp only at h
            cases h
            apply RegExtends.of_file_eq
            show st3.file = st.file
            rw [consumeSymbol_file hk, pAdvance_file, hfile1]
        · rw [if_neg hv] at h
          by_cases hs : checkKeyword "struct" st1 = true
          · rw [if_pos hs] at h
            match hI : parseInlineStructField fuel p st1 with
            | .error e =>
              rw [hI] at h
              cases h
            | .ok (f, st2) =>
              rw [hI] at h
              dsimp only at h
              cases h
              exact RegExtends.trans'
                (RegExtends.of_file_eq hfile1) (ihI p st1 _ hI)
          · rw [if_neg hs] at h
            match hF : parseField fuel p st1 with
            | .error e =>
              rw [hF] at h
              cases h
            | .ok (f, st2) =>
              rw [hF] at h
              dsimp only at h
              cases h
              exact RegExtends.trans'
                (RegExtends.of_file_eq hfile1) (ihF p st1 _ hF)
    · -- parseFieldsLoop
      intro n acc st r h
      unfold parseFieldsLoop at h
      by_cases hb : checkSymbol "\x7d" st = true
      · rw [if_neg (not_not_intro hb)] at h
        cases h
        exact RegExtends.of_file_eq rfl
      · rw [if_pos hb] at h
        match hF : parseField fuel (some n) st with
        | .error e =>
          rw [hF] at h
          cases h
        | .ok (f, st1) =>
          rw [hF] at h
          exact RegExtends.trans' (ihF _ st _ hF) (ihFL _ _ _ _ h)
    · -- parseUnionCasesGo
      intro n acc st r h
      unfold parseUnionCasesGo at h
      by_cases hb : checkSymbol "\x7d" st = true
      · rw [if_neg (not_not_intro hb)] at h
        cases h
        exact RegExtends.of_file_eq rfl
      · rw [if_pos hb] at h
        match hC : parseUnionCase fuel (some n) st with
        | .error e =>
          rw [hC] at h
          cases h
        | .ok (c, st1) =>
          rw [hC] at h
          exact RegExtends.trans' (ihC _ st _ hC) (ihCL _ _ _ _ h)

theorem parentTruthy_some {p : String} (hp : p ≠ "") :
    parentTruthy (some p) = true := by
  simp [parentTruthy, String.isEmpty_iff, hp]

/-- C6: whenever the parser parses an inline `union switch (...)` or
`struct` field inside a named enclosing type `p`, it names the
synthesized node by concatenating `p` with the PascalCase field name,
stores exactly that node in the field (`inline_union`/`inline_struct`),
sets the field's `type_name` to the synthesized name, and appends the
node to the current file's top-level unions/structs before returning —
with everything previously registered kept as a prefix. -/
theorem inline_fields_synthesize_and_register (fuel : Nat) (p : String)
    (hp : p ≠ "") (st : PState) :
    (∀ fld st', parseAnonymousUnionField fuel (some p) st = .ok (fld, st') →
      fld.type_name = p ++ pascalCase fld.name ∧
      ∃ u, fld.inline_union = some u ∧ u.name = fld.type_name ∧
        ∃ pre, st'.file.unions = st.file.unions ++ pre ++ [u]) ∧
    (∀ fld st', parseInlineStructField fuel (some p) st = .ok (fld, st') →
      fld.type_name = p ++ pascalCase fld.name ∧
      ∃ s, fld.inline_struct = some s ∧ s.name = fld.type_name ∧
        ∃ pre, st'.file.structs = st.file.structs ++ pre ++ [s]) := by
  have hpt := parentTruthy_some hp
  match fuel with
  | 0 =>
    constructor
    · intro fld st' h
      cases h
    · intro fld st' h
      cases h
  | fuel + 1 =>
    constructor
    · -- anonymous union field
      intro fld st' h
      unfold parseAnonymousUnionField at h
      dsimp only at h
      simp only [if_pos hpt] at h
      match hk1 : consumeKeyword "union" st with
      | .error e =>
        rw [hk1] at h
        cases h
      | .ok (a1, st1) =>
        rw [hk1] at h
        dsimp only at h
        match hk2 : consumeKeyword "switch" st1 with
        | .error e =>
          rw [hk2] at h
          cases h
        | .ok (a2, st2) =>
          rw [hk2] at h
          dsimp only at h
          match hk3 : consumeSymbol "(" st2 with
          | .error e =>
            rw [hk3] at h
            cases h
          | .ok (a3, st3) =>
            rw [hk3] at h
            dsimp only at h
            have hdisc : ∀ dt st4, (if checkKeyword "int" st3 = true
                  then Except.ok ("int", (pAdvance st3).2)
                  else consumeIdentifier st3) = .ok (dt, st4) →
                st4.file = st3.file := by
              intro dt st4 hd
              split at hd
              · cases hd
                exact pAdvance_file st3
              · exact consumeIdentifier_file hd
            match hd : (if checkKeyword "int" st3 = true
                then Except.ok ("int", (pAdvance st3).2)
                else consumeIdentifier st3) with
            | .error e =>
              rw [hd] at h
              cases h
            | .ok (dt, st4) =>
              rw [hd] at h
              dsimp only at h
              match hk4 : consumeIdentifier st4 with
              | .error e =>
                rw [hk4] at h
                cases h
              | .ok (dn, st5) =>
                rw [hk4] at h
                dsimp only at h
                match hk5 : consumeSymbol ")" st5 with
                | .error e =>
                  rw [hk5] at h
                  cases h
                | .ok (a5, st6) =>
                  rw [hk5] at h
                  dsimp only at h
                  match hk6 : consumeSymbol "\x7b" st6 with
                  | .error e =>
                    rw [hk6] at h
                    cases h
                  | .ok (a6, stBody) =>
                    rw [hk6] at h
                    dsimp only at h
                    match hsk : skipBracesGo fuel 1 stBody with
                    | .error e =>
                      rw [hsk] at h
                      cases h
                    | .ok stSkip =>
                      rw [hsk] at h
                      dsimp only at h
                      match hfn : consumeIdentifier stSkip with
                      | .error e =>
                        rw [hfn] at h
                        cases h
                      | .ok (fn, stPeek) =>
                        rw [hfn] at h
                        dsimp only at h
                        match hC : parseUnionCasesGo fuel
                            ((some p : Option String).getD "" ++ pascalCase fn)
                            [] stBody with
                        | .error e =>
                          rw [hC] at h
                          cases h
                        | .ok (cs, st7) =>
                          rw [hC] at h
                          dsimp only at h
                          match hk7 : consumeSymbol "\x7d" st7 with
                          | .error e =>
                            rw [hk7] at h
                            cases h
                          | .ok (a7, st8) =>
                            rw [hk7] at h
                            dsimp only at h
                            match hk8 : consumeIdentifier st8 with
                            | .error e =>
                              rw [hk8] at h
                              cases h
                            | .ok (a8, st9) =>
                              rw [hk8] at h
                              dsimp only at h
                              match hk9 : consumeSymbol ";" st9 with
                              | .error e =>
                                rw [hk9] at h
                                cases h
                              | .ok (a9, st10) =>
                                rw [hk9] at h
                                dsimp only at h
                                cases h
                                have hpre : st.file = stBody.file := by
                                  rw [consumeSymbol_file hk6,
                                    consumeSymbol_file hk5,
                                    consumeIdentifier_file hk4,
                                    hdisc dt st4 hd,
                                    consumeSymbol_file hk3,
                                    consumeKeyword_file hk2,
                                    consumeKeyword_file hk1]
                                have hmid : RegExtends stBody st7 :=
                                  ((((((parseMutual_mono fuel).2).2).2).2).2) _ _ _ _ hC
                                obtain ⟨_, ⟨lu, hu⟩⟩ := hmid
                                have hpost : st10.file = st7.file := by
                                  rw [consumeSymbol_file hk9,
                                    consumeIdentifier_file hk8,
                                    consumeSymbol_file hk7]
                                refine ⟨rfl, ⟨_, rfl, rfl, ⟨lu, ?_⟩⟩⟩
                                show st10.file.unions ++ _ = _
                                rw [hpost, hu, ← hpre]
    · -- inline struct field
      intro fld st' h
      unfold parseInlineStructField at h
      dsimp only at h
      simp only [if_pos hpt] at h
      match hk1 : consumeKeyword "struct" st with
      | .error e =>
        rw [hk1] at h
        cases h
      | .ok (a1, st1) =>
        rw [hk1] at h
        dsimp only at h
        match hk2 : consumeSymbol "\x7b" st1 with
        | .error e =>
          rw [hk2] at h
          cases h
        | .ok (a2, stBody) =>
          rw [hk2] at h
          dsimp only at h
          match hsk : skipBracesGo fuel 1 stBody with
          | .error e =>
            rw [hsk] at h
            cases h
          | .ok stSkip =>
            rw [hsk] at h
            dsimp only at h
            match hfn : consumeIdentifier stSkip with
            | .error e =>
              rw [hfn] at h
              cases h
            | .ok (fn, stPeek) =>
              rw [hfn] at h
              dsimp only at h
              match hC : parseFieldsLoop fuel
                  ((some p : Option String).getD "" ++ pascalCase fn)
                  [] stBody with
              | .error e =>
                rw [hC] at h
                cases h
              | .ok (fs, st2) =>
                rw [hC] at h
                dsimp only at h
                match hk7 : consumeSymbol "\x7d" st2 with
                | .error e =>
                  rw [hk7] at h
                  cases h
                | .ok (a7, st3) =>
                  rw [hk7] at h
                  dsimp only at h
                  match hk8 : consumeIdentifier st3 with
                  | .error e =>
                    rw [hk8] at h
                    cases h
                  | .ok (a8, st4) =>
                    rw [hk8] at h
                    dsimp only at h
                    match hk9 : consumeSymbol ";" st4 with
                    | .error e =>
                      rw [hk9] at h
                      cases h
                    | .ok (a9, st5) =>
                      rw [hk9] at h
                      dsimp only at h
                      cases h
                      have hpre : st.file = stBody.file := by
                        rw [consumeSymbol_file hk2, consumeKeyword_file hk1]
                      have hmid : RegExtends stBody st2 :=
                        (((((parseMutual_mono fuel).2).2).2).2).1 _ _ _ _ hC
                      obtain ⟨⟨ls, hs⟩, _⟩ := hmid
                      have hpost : st5.file = st2.file := by
                        rw [consumeSymbol_file hk9,
                          consumeIdentifier_file hk8,
                          consumeSymbol_file hk7]
                      refine ⟨rfl, ⟨_, rfl, rfl, ⟨ls, ?_⟩⟩⟩
                      show st5.file.structs ++ _ = _
                      rw [hpost, hs, ← hpre]

/-- Token stream of a concrete source fragment (ASCII classifier),
empty on a lexer failure. -/
def toksOf (s : String) : List Token :=
  match tokenize asciiCC s "inline.x" with
  | .ok ts => ts
  | _ => []

/-- Parser state positioned at the start of an inline-union field of a
surrounding type. -/
def c6AnonSt : PState :=
  ⟨toksOf "union switch (int type) \x7b case 0: void; \x7d payload;",
   "inline.x", 0, ⟨"inline.x", none, [], [], [], [], []⟩⟩

/-- Parser state positioned at the start of an inline-struct field of a
surrounding type. -/
def c6StructSt : PState :=
  ⟨toksOf "struct \x7b int a; \x7d inner;",
   "inline.x", 0, ⟨"inline.x", none, [], [], [], [], []⟩⟩

/-- Concrete run of the C6 theorem: inside parent `Outer`, the inline
union field `payload` gets type `OuterPayload`, the inline struct field
`inner` gets type `OuterInner`, and the synthesized types are appended
to the file's registries. -/
theorem inline_fields_synthesize_and_register_witness :
    ("Outer" : String) ≠ "" ∧
    (∃ fld st', parseAnonymousUnionField 50 (some "Outer") c6AnonSt = .ok (fld, st') ∧
      fld.type_name = "Outer" ++ pascalCase fld.name ∧
      ∃ u, fld.inline_union = some u ∧ u.name = fld.type_name ∧
        ∃ pre, st'.file.unions = c6AnonSt.file.unions ++ pre ++ [u]) ∧
    (∃ fld st', parseInlineStructField 50 (some "Outer") c6StructSt = .ok (fld, st') ∧
      fld.type_name = "Outer" ++ pascalCase fld.name ∧
      ∃ s, fld.inline_struct = some s ∧ s.name = fld.type_name ∧
        ∃ pre, st'.file.structs = c6StructSt.file.structs ++ pre ++ [s]) := by
  refine ⟨by decide, ?_, ?_⟩
  · exact ⟨_, _, rfl,
      (inline_fields_synthesize_and_register 50 "Outer" (by decide) c6AnonSt).1 _ _ rfl⟩
  · exact ⟨_, _, rfl,
      (inline_fields_synthesize_and_register 50 "Outer" (by decide) c6StructSt).2 _ _ rfl⟩


/-- Empty starting file for single-field parses. -/
def c4File : XdrFile := ⟨"fields.x", none, [], [], [], [], []⟩

/-- C4: `string name<16>;` parses to a field with `max_length = 16` and
both array flags false (`is_array` is false), while `Hash name<16>;`
parses to a variable array of size 16 (`is_array` true). -/
theorem string_bound_vs_variable_array :
    (∃ fld st', parseField 50 none ⟨toksOf "string name<16>;", "fields.x", 0, c4File⟩
        = .ok (fld, st') ∧
      fld.max_length = some 16 ∧ fld.is_fixed_array = false ∧
      fld.is_variable_array = false ∧ fld.is_array = false) ∧
    (∃ fld st', parseField 50 none ⟨toksOf "Hash name<16>;", "fields.x", 0, c4File⟩
        = .ok (fld, st') ∧
      fld.is_variable_array = true ∧ fld.array_size = some 16 ∧
      fld.is_array = true) :=
  ⟨⟨_, _, rfl, rfl, rfl, rfl, rfl⟩, ⟨_, _, rfl, rfl, rfl, rfl⟩⟩

/-- C7: the claim says only LexError/ParseError can escape `parse`;
but `_parse_number` calls `int(value)` in base 10 on any NUMBER token
that does not *start with* `0x`/`0X`, so the literal `-0x1` (lexed as a
single NUMBER token) reaches `int('-0x1')`, which raises a ValueError
that propagates out of the parse entry point. -/
theorem parse_minus_hex_const_escapes_with_valueerror :
    parseXdrContent asciiCC "const X = -0x1;" "consts.x" = .otherExn := rfl


/-! ## Dart analyzer and merger (dart_analyzer.py, dart_merger.py)

Scanning is over `List Char`.  Python `re` character classes are
embedded at their ASCII meaning (every theorem below applies them to
ASCII text only): `\s` is space/tab/newline/CR/VT/FF and `\w` is
letters/digits/underscore.  Python's `-1` "not found" sentinel is
embedded as `none`; where a `-1` can flow into a slice, slicing is done
with Python's negative-index semantics (`pyBound`). -/

def reIsSpace (c : Char) : Bool :=
  c = ' ' || c = '\t' || c = '\n' || c = '\r' || c = '\x0b' || c = '\x0c'

def reIsWord (c : Char) : Bool :=
  c.isAlpha || c.isDigit || c = '_'

/-- `str.strip()` / `lstrip` / `rstrip` with no argument (whitespace). -/
def pyLstripWs (cs : List Char) : List Char := cs.dropWhile reIsSpace

def pyRstripWs (cs : List Char) : List Char :=
  (cs.reverse.dropWhile reIsSpace).reverse

def pyStripWs (cs : List Char) : List Char := pyRstripWs (pyLstripWs cs)

/-- Python slice bound: negative indices count from the end. -/
def pyBound (n : Nat) (k : Int) : Nat :=
  if k < 0 then (((n : Int) + k).toNat) else min k.toNat n

def pyTake (cs : List Char) (k : Int) : List Char := cs.take (pyBound cs.length k)

def pyDrop (cs : List Char) (k : Int) : List Char := cs.drop (pyBound cs.length k)

/-- First index `≥ base` at which `pat` occurs in the list being scanned
(`cs` is the suffix starting at `base`). -/
def findSubGo (pat : List Char) : List Char → Nat → Option Nat
  | [], base => if pat.isPrefixOf ([] : List Char) then some base else none
  | c :: t, base =>
    if pat.isPrefixOf (c :: t) then some base else findSubGo pat t (base + 1)

/-- `pat in cs` (Python substring test). -/
def containsSub (pat cs : List Char) : Bool := (findSubGo pat cs 0).isSome

/-- `str.count(pat)`: non-overlapping occurrence count (callers only
pass the non-empty marker literals). -/
def countSubGo (pat : List Char) : Nat → List Char → Nat
  | 0, _ => 0
  | _ + 1, [] => if pat = [] then 1 else 0
  | fuel + 1, c :: t =>
    if pat.isPrefixOf (c :: t) then 1 + countSubGo pat fuel ((c :: t).drop pat.length)
    else countSubGo pat fuel t

def countSub (pat cs : List Char) : Nat := countSubGo pat (cs.length + 1) cs

/-- `re.finditer` over a literal pattern: the sorted positions of its
non-overlapping occurrences. -/
def allOccsGo (pat : List Char) : Nat → List Char → Nat → List Nat
  | 0, _, _ => []
  | _ + 1, [], _ => []
  | fuel + 1, c :: t, base =>
    if pat.isPrefixOf (c :: t) then
      base :: allOccsGo pat fuel ((c :: t).drop pat.length) (base + pat.length)
    else allOccsGo pat fuel t (base + 1)

def allOccs (pat cs : List Char) : List Nat := allOccsGo pat (cs.length + 1) cs 0

/-- `str.replace(old, new)` (all occurrences; callers only pass a
non-empty `old`). -/
def replaceAll (old new : List Char) : Nat → List Char → List Char
  | 0, cs => cs
  | _ + 1, [] => []
  | fuel + 1, c :: t =>
    if old ≠ [] ∧ old.isPrefixOf (c :: t) then
      new ++ replaceAll old new fuel ((c :: t).drop old.length)
    else c :: replaceAll old new fuel t

/-- `content.split('\n')`. -/
def splitNl : List Char → List (List Char)
  | [] => [[]]
  | c :: t =>
    match splitNl t with
    | [] => [[c]]
    | l :: ls => if c = '\n' then [] :: l :: ls else (c :: l) :: ls

/-- `'\n'.join(lines)`. -/
def joinNl (lines : List (List Char)) : List Char :=
  match lines with
  | [] => []
  | l :: ls => ls.foldl (fun acc x => acc ++ '\n' :: x) l

/-- `re.sub(rf'\b{pat}\b', rep, ·)` for a non-empty all-word-character
`pat` (the merger only substitutes class names, which are `\w+`
captures; the degenerate empty pattern cannot arise from them). -/
def wordSubGo (pat rep : List Char) : Nat → Option Char → List Char → List Char
  | 0, _, cs => cs
  | _ + 1, _, [] => []
  | fuel + 1, prev, c :: t =>
    let prevOk : Bool := match prev with | none => true | some p => ¬ reIsWord p
    let nextOk : Bool :=
      match (c :: t).drop pat.length with
      | [] => true
      | nxt :: _ => ¬ reIsWord nxt
    if !pat.isEmpty && pat.isPrefixOf (c :: t) && prevOk && nextOk then
      rep ++ wordSubGo pat rep fuel (some (pat.getLastD c)) ((c :: t).drop pat.length)
    else c :: wordSubGo pat rep fuel (some c) t

def wordSub (pat rep cs : List Char) : List Char :=
  wordSubGo pat rep (cs.length + 1) none cs



/-- State of `DartAnalyzer._find_matching_brace`'s scan loop: position,
brace depth, and the four mutually exclusive lexical states (normal =
all three flags off). -/
structure BraceSt where
  pos : Nat
  depth : Int
  in_string : Bool
  string_char : Option Char
  in_single : Bool
  in_multi : Bool
deriving DecidableEq

/-- One iteration of the `while` body of
`DartAnalyzer._find_matching_brace` (dart_analyzer.py lines 380-433):
`.error p` embeds the early `return pos`, `.ok` the `continue`/fall
through to `pos += 1`.  The `elif`-free Python `continue` chain is the
nested `if … else` below, with each condition exactly as written in the
source (the single-line-comment opener does not test `in_single_comment`,
the block-comment opener does not test `in_multi_comment`). -/
def braceStep (cs : List Char) (st : BraceSt) : Except Nat BraceSt :=
  let char := cs.getD st.pos (Char.ofNat 0)
  let prev_char := if st.pos > 0 then cs.getD (st.pos - 1) (Char.ofNat 0) else Char.ofNat 0
  let next_char := if st.pos + 1 < cs.length then cs.getD (st.pos + 1) (Char.ofNat 0) else Char.ofNat 0
  if ¬ st.in_string ∧ ¬ st.in_multi ∧ char = '/' ∧ next_char = '/' then
    .ok { st with in_single := true, pos := st.pos + 2 }
  else if st.in_single ∧ char = '\n' then
    .ok { st with in_single := false, pos := st.pos + 1 }
  else if ¬ st.in_string ∧ ¬ st.in_single ∧ char = '/' ∧ next_char = '*' then
    .ok { st with in_multi := true, pos := st.pos + 2 }
  else if st.in_multi ∧ char = '*' ∧ next_char = '/' then
    .ok { st with in_multi := false, pos := st.pos + 2 }
  else if st.in_single ∨ st.in_multi then
    .ok { st with pos := st.pos + 1 }
  else
    let strState : Bool × Option Char :=
      if (char = '"' ∨ char = '\'') ∧ prev_char ≠ '\\' then
        if ¬ st.in_string then (true, some char)
        else if some char = st.string_char then (false, none)
        else (st.in_string, st.string_char)
      else (st.in_string, st.string_char)
    let depth' : Int :=
      if ¬ strState.1 then
        if char = '\x7b' then st.depth + 1
        else if char = '\x7d' then st.depth - 1
        else st.depth
      else st.depth
    if depth' = 0 then .error st.pos
    else .ok { st with in_string := strState.1, string_char := strState.2,
                       depth := depth', pos := st.pos + 1 }

def findMatchingBraceGo (cs : List Char) : Nat → BraceSt → Option Nat
  | 0, _ => none
  | fuel + 1, st =>
    if st.pos < cs.length ∧ st.depth > 0 then
      match braceStep cs st with
      | .error p => some p
      | .ok st' => findMatchingBraceGo cs fuel st'
    else none

/-- `DartAnalyzer._find_matching_brace`: `-1` is embedded as `none`.
The position advances by at least 1 per iteration, so `length + 1`
steps of fuel always outlast the source's `pos < len(content)` guard. -/
def findMatchingBrace (cs : List Char) (start_pos : Nat) : Option Nat :=
  if start_pos ≥ cs.length ∨ ¬ cs.getD start_pos (Char.ofNat 0) = '\x7b' then none
  else findMatchingBraceGo cs (cs.length + 1) ⟨start_pos + 1, 1, false, none, false, false⟩

/-- The `while` loop of `DartMerger._find_class_end` (dart_merger.py
lines 484-509): the string-only scanner — line and block comments are
NOT tracked here, unlike the analyzer's scanner above. -/
def findClassEndGo (cs : List Char) : Nat → Nat → Int → Bool → Option Char → Option Nat
  | 0, _, _, _, _ => none
  | fuel + 1, pos, depth, in_string, string_char =>
    if pos < cs.length ∧ depth > 0 then
      let char := cs.getD pos (Char.ofNat 0)
      let prev_char := if pos > 0 then cs.getD (pos - 1) (Char.ofNat 0) else Char.ofNat 0
      let strState : Bool × Option Char :=
        if (char = '"' ∨ char = '\'') ∧ prev_char ≠ '\\' then
          if ¬ in_string then (true, some char)
          else if some char = string_char then (false, none)
          else (in_string, string_char)
        else (in_string, string_char)
      let depth' : Int :=
        if ¬ strState.1 then
          if char = '\x7b' then depth + 1
          else if char = '\x7d' then depth - 1
          else depth
        else depth
      if depth' = 0 then some pos
      else findClassEndGo cs fuel (pos + 1) depth' strState.1 strState.2
    else none

/-- `DartMerger._find_class_end` (`-1` embedded as `none`). -/
def findClassEnd (cs : List Char) (start_pos : Nat) : Option Nat :=
  if start_pos ≥ cs.length ∨ ¬ cs.getD start_pos (Char.ofNat 0) = '\x7b' then none
  else findClassEndGo cs (cs.length + 1) (start_pos + 1) 1 false none

/-- `DartMerger._find_method_end`: its body is textually identical to
`_find_class_end` (dart_merger.py lines 618-661). -/
def findMethodEnd (cs : List Char) (start_pos : Nat) : Option Nat :=
  findClassEnd cs start_pos



/-! ### The `re` patterns used by the analyzer and merger

Each pattern is embedded as a hand-specialized matcher.  In every
pattern below the subexpression boundaries are forced (`\s`, `\w`, the
quote class and literals are pairwise disjoint where they meet), so the
greedy runs are maximal and no backtracking can produce a different
match; the one genuine alternative — the optional `static␣` prefix of
the method-signature patterns — is tried first and falls back, exactly
like the regex engine. -/

/-- `class\s+(\w+)[^\x7b]*\x7b` at one position (analyzer
`extract_class_names`, merger `_extract_generated_class_names`):
returns the captured name and the match length. -/
def classHeadAt (rest : List Char) : Option (List Char × Nat) :=
  if ("class".data).isPrefixOf rest then
    let r1 := rest.drop 5
    let ws := r1.takeWhile reIsSpace
    if ws.isEmpty then none else
    let r2 := r1.drop ws.length
    let w := r2.takeWhile reIsWord
    if w.isEmpty then none else
    let r3 := r2.drop w.length
    let nb := r3.takeWhile (fun c => ¬ c = '\x7b')
    if nb.length < r3.length then
      some (w, 5 + ws.length + w.length + nb.length + 1)
    else none
  else none

/-- `class\s+NAME\b` at one position (merge_file presence checks). -/
def classWordAt (name : List Char) (rest : List Char) : Bool :=
  if ("class".data).isPrefixOf rest then
    let r1 := rest.drop 5
    let ws := r1.takeWhile reIsSpace
    if ws.isEmpty then false else
    let r2 := r1.drop ws.length
    if name.isPrefixOf r2 then
      match r2.drop name.length with
      | [] => true
      | nxt :: _ => ¬ reIsWord nxt
    else false
  else false

/-- `class\s+NAME\b[^\x7b]*\x7b` at one position: match length. -/
def classOpenAt (name : List Char) (rest : List Char) : Option Nat :=
  if ("class".data).isPrefixOf rest then
    let r1 := rest.drop 5
    let ws := r1.takeWhile reIsSpace
    if ws.isEmpty then none else
    let r2 := r1.drop ws.length
    if name.isPrefixOf r2 then
      let r3 := r2.drop name.length
      let bOk : Bool := match r3 with
        | [] => true
        | nxt :: _ => ¬ reIsWord nxt
      if bOk then
        let nb := r3.takeWhile (fun c => ¬ c = '\x7b')
        if nb.length < r3.length then
          some (5 + ws.length + name.length + nb.length + 1)
        else none
      else none
    else none
  else none

/-- `re.search` scan: first position where a one-position matcher hits. -/
def searchGo (m : List Char → Option Nat) : List Char → Nat → Option (Nat × Nat)
  | [], base => (m []).map (fun len => (base, len))
  | c :: t, base =>
    match m (c :: t) with
    | some len => some (base, len)
    | none => searchGo m t (base + 1)

/-- `re.search(class\s+NAME\b[^\x7b]*\x7b)`: `(match.start, match.end)`. -/
def classOpenSearch (name cs : List Char) : Option (Nat × Nat) :=
  (searchGo (classOpenAt name) cs 0).map (fun p => (p.1, p.1 + p.2))

/-- `re.search(class\s+NAME\b) is not None`. -/
def classWordSearch (name cs : List Char) : Bool :=
  (searchGo (fun r => if classWordAt name r then some 0 else none) cs 0).isSome

/-- `re.finditer(class\s+(\w+)[^\x7b]*\x7b)`: the captured names, in
order, resuming each scan at the previous match's end. -/
def classNamesGo : Nat → List Char → List (List Char)
  | 0, _ => []
  | fuel + 1, cs =>
    match searchGo (fun r => (classHeadAt r).map (·.2)) cs 0 with
    | none => []
    | some (s, len) =>
      match classHeadAt (cs.drop s) with
      | some (w, _) => w :: classNamesGo fuel (cs.drop (s + len))
      | none => []

def extractClassNames (cs : List Char) : List String :=
  (classNamesGo (cs.length + 1) cs).map String.mk

/-- `import\s+['\x22]([^'\x22]+)['\x22];?` anchored at the start
(`re.match` in `merge_imports`): the captured path. -/
def importPathCapture (line : List Char) : Option (List Char) :=
  if ("import".data).isPrefixOf line then
    let r1 := line.drop 6
    let ws := r1.takeWhile reIsSpace
    if ws.isEmpty then none else
    match r1.drop ws.length with
    | [] => none
    | q :: r3 =>
      if q = '\'' ∨ q = '"' then
        let p := r3.takeWhile (fun c => ¬ (c = '\'' ∨ c = '"'))
        if p.isEmpty then none else
        match r3.drop p.length with
        | [] => none
        | _ :: _ => some p
      else none
  else none

/-- `^import\s+['\x22]([^'\x22]+)['\x22];?\s*$` against a whole line
(analyzer `extract_imports` and merger `_extract_imports` apply it to
the stripped line): the captured path. -/
def importLineCapture (line : List Char) : Option (List Char) :=
  if ("import".data).isPrefixOf line then
    let r1 := line.drop 6
    let ws := r1.takeWhile reIsSpace
    if ws.isEmpty then none else
    match r1.drop ws.length with
    | [] => none
    | q :: r3 =>
      if q = '\'' ∨ q = '"' then
        let p := r3.takeWhile (fun c => ¬ (c = '\'' ∨ c = '"'))
        if p.isEmpty then none else
        match r3.drop p.length with
        | [] => none
        | _ :: r4 =>
          let r5 := match r4 with
            | ';' :: t => t
            | _ => r4
          if r5.all reIsSpace then some p else none
      else none
  else none

/-- `re.match(r"^import\s+", ·)`. -/
def lineStartsImport (line : List Char) : Bool :=
  ("import".data).isPrefixOf line ∧ ¬ ((line.drop 6).takeWhile reIsSpace).isEmpty

/-- `re.match(r"^class\s+", ·)`. -/
def lineStartsClass (line : List Char) : Bool :=
  ("class".data).isPrefixOf line ∧ ¬ ((line.drop 5).takeWhile reIsSpace).isEmpty

/-- Character offsets at which lines begin (`re.MULTILINE` `^`): the
start of the text and the position after every newline, each paired
with the suffix starting there. -/
def lineStartsGo : List Char → Nat → List (Nat × List Char)
  | [], _ => []
  | c :: t, base =>
    if c = '\n' then (base + 1, t) :: lineStartsGo t (base + 1)
    else lineStartsGo t (base + 1)

def lineStarts (cs : List Char) : List (Nat × List Char) :=
  (0, cs) :: lineStartsGo cs 0

/-- First `re.MULTILINE` line-start offset whose suffix satisfies the
anchored matcher. -/
def firstLineStart (pred : List Char → Bool) (cs : List Char) : Option Nat :=
  ((lineStarts cs).find? (fun p => pred p.2)).map (·.1)



def startMarker : List Char := "// CUSTOM_CODE_START".data
def endMarker : List Char := "// CUSTOM_CODE_END".data

/-- `(?:\w+\??)\s+(\w+)\s*\(` at one position (the part of the
method-detection pattern after the optional `static`): captured name
and match length. -/
def methodSigTail (r : List Char) : Option (List Char × Nat) :=
  let w := r.takeWhile reIsWord
  if w.isEmpty then none else
  let r1 := r.drop w.length
  let q : Nat × List Char := match r1 with
    | '?' :: t => (1, t)
    | _ => (0, r1)
  let ws := q.2.takeWhile reIsSpace
  if ws.isEmpty then none else
  let r2 := q.2.drop ws.length
  let nm := r2.takeWhile reIsWord
  if nm.isEmpty then none else
  let r3 := r2.drop nm.length
  let ws2 := r3.takeWhile reIsSpace
  match r3.drop ws2.length with
  | '(' :: _ =>
    some (nm, w.length + q.1 + ws.length + nm.length + ws2.length + 1)
  | _ => none

/-- `(?:static\s+)?(?:\w+\??)\s+(\w+)\s*\(` at one position
(`_detect_methods_in_custom_code`): the `static` branch is tried first
and falls back, like the regex engine's preference for the non-empty
optional. -/
def methodSigAt (r : List Char) : Option (List Char × Nat) :=
  (if ("static".data).isPrefixOf r then
    let r1 := r.drop 6
    let ws := r1.takeWhile reIsSpace
    if ws.isEmpty then none
    else (methodSigTail (r1.drop ws.length)).map
      (fun p => (p.1, 6 + ws.length + p.2))
  else none) <|> methodSigTail r

/-- `re.finditer` of the method-detection pattern: captured names in
order (scan resumes at each match's end). -/
def methodNamesGo : Nat → List Char → List (List Char)
  | 0, _ => []
  | fuel + 1, cs =>
    match searchGo (fun r => (methodSigAt r).map (·.2)) cs 0 with
    | none => []
    | some (s, len) =>
      match methodSigAt (cs.drop s) with
      | some (nm, _) => nm :: methodNamesGo fuel (cs.drop (s + len))
      | none => []

/-- `DartMerger._detect_methods_in_custom_code`: detected names minus
the keyword-like false positives the source filters out. -/
def detectMethodsInCustomCode (custom_content : List Char) : List (List Char) :=
  (methodNamesGo (custom_content.length + 1) custom_content).filter
    (fun nm => ¬ (String.mk nm ∈
      ["if", "for", "while", "switch", "return", "get", "set"]))

/-- `\n\s*(?:static\s+)?(?:\w+\??)\s+NAME\s*\([^)]*\)\s*\x7b` at one
position (`_remove_conflicting_methods`): match length. -/
def removePatTail (name : List Char) (r : List Char) : Option Nat :=
  let w := r.takeWhile reIsWord
  if w.isEmpty then none else
  let r1 := r.drop w.length
  let q : Nat × List Char := match r1 with
    | '?' :: t => (1, t)
    | _ => (0, r1)
  let ws := q.2.takeWhile reIsSpace
  if ws.isEmpty then none else
  let r2 := q.2.drop ws.length
  if name.isPrefixOf r2 then
    let r3 := r2.drop name.length
    let ws2 := r3.takeWhile reIsSpace
    match r3.drop ws2.length with
    | '(' :: r4 =>
      let args := r4.takeWhile (fun c => ¬ c = ')')
      match r4.drop args.length with
      | ')' :: r5 =>
        let ws3 := r5.takeWhile reIsSpace
        match r5.drop ws3.length with
        | '\x7b' :: _ =>
          some (w.length + q.1 + ws.length + name.length + ws2.length + 1 +
                args.length + 1 + ws3.length + 1)
        | _ => none
      | _ => none
    | _ => none
  else none

def removePatAt (name : List Char) (r : List Char) : Option Nat :=
  match r with
  | '\n' :: r0 =>
    let ws := r0.takeWhile reIsSpace
    let r1 := r0.drop ws.length
    let tail :=
      (if ("static".data).isPrefixOf r1 then
        let r2 := r1.drop 6
        let ws1 := r2.takeWhile reIsSpace
        if ws1.isEmpty then none
        else (removePatTail name (r2.drop ws1.length)).map (6 + ws1.length + ·)
      else none) <|> removePatTail name r1
    tail.map (1 + ws.length + ·)
  | _ => none

/-- `list(re.finditer(...))` of the removal pattern: `(start, end)`
spans, non-overlapping, in order. -/
def removePatAllGo (name : List Char) : Nat → List Char → Nat → List (Nat × Nat)
  | 0, _, _ => []
  | fuel + 1, cs, base =>
    match searchGo (removePatAt name) cs 0 with
    | none => []
    | some (s, len) =>
      (base + s, base + s + len) ::
        removePatAllGo name fuel (cs.drop (s + len)) (base + s + len)

def removePatAll (name cs : List Char) : List (Nat × Nat) :=
  removePatAllGo name (cs.length + 1) cs 0

/-- One match of `START\n(.*?)END` (`re.DOTALL`, lazy group) scanning
from the current suffix: `(match start, group start, group length,
match end)`, offsets relative to the suffix. -/
def sectionAt (r : List Char) : Option (Nat × Nat) :=
  if (startMarker ++ ['\n']).isPrefixOf r then
    (findSubGo endMarker (r.drop (startMarker.length + 1)) 0).map
      (fun d => (d, startMarker.length + 1 + d + endMarker.length))
  else none

/-- `re.finditer(START\n(.*?)END, body, re.DOTALL)`: the group-1
texts, in order. -/
def sectionBodiesGo : Nat → List Char → List (List Char)
  | 0, _ => []
  | fuel + 1, cs =>
    match searchGo (fun r => (sectionAt r).map (·.2)) cs 0 with
    | none => []
    | some (s, len) =>
      match sectionAt (cs.drop s) with
      | some (d, _) =>
        ((cs.drop (s + startMarker.length + 1)).take d) ::
          sectionBodiesGo fuel (cs.drop (s + len))
      | none => []

def sectionBodies (cs : List Char) : List (List Char) :=
  sectionBodiesGo (cs.length + 1) cs



/-- Embeds dataclass `CustomSection` (dart_analyzer.py).  The marker
fields always hold their defaults in this codebase (no caller overrides
them), so they are embedded as the constants `startMarker`/`endMarker`. -/
structure CustomSection where
  content : String
  class_name : String
deriving DecidableEq

/-- Embeds dataclass `DartClassInfo` (dart_analyzer.py).  The
`extends_clause` field is omitted: `analyze_file` computes it but
nothing in the analyzer or merger pipeline ever reads it. -/
structure DartClassInfo where
  name : String
  has_custom_code : Bool
  custom_sections : List CustomSection
  imports : List String
  file_header : Option String
deriving DecidableEq

/-- Python `dict` assignment: replace in place when the key exists,
append otherwise (insertion order preserved). -/
def dictSet {α β : Type} [DecidableEq α] (d : List (α × β)) (k : α) (v : β) :
    List (α × β) :=
  if d.any (fun p => p.1 = k) then d.map (fun p => if p.1 = k then (k, v) else p)
  else d ++ [(k, v)]

def dictHasKey {α β : Type} [DecidableEq α] (d : List (α × β)) (k : α) : Bool :=
  d.any (fun p => p.1 = k)

/-- Stable merge of the start-marker and end-marker position lists
(both ascending), mirroring `positions.sort(key=lambda x: x[1])` on the
starts-then-ends list: ties keep the start first. -/
def mergeByPos : Nat → List (Bool × Nat) → List (Bool × Nat) → List (Bool × Nat)
  | 0, ss, es => ss ++ es
  | _ + 1, [], es => es
  | _ + 1, ss, [] => ss
  | fuel + 1, s :: ss, e :: es =>
    if s.2 ≤ e.2 then s :: mergeByPos fuel ss (e :: es)
    else e :: mergeByPos fuel (s :: ss) es

/-- The depth walk of `_validate_no_nested_markers`: a start marker at
positive depth, or an end marker taking the depth negative, raises. -/
def markerDepthCheck : List (Bool × Nat) → Int → Except String Unit
  | [], _ => .ok ()
  | (isStart, _) :: rest, depth =>
    if isStart then
      if depth > 0 then .error "Nested CUSTOM_CODE_START marker detected"
      else markerDepthCheck rest (depth + 1)
    else
      if depth - 1 < 0 then .error "CUSTOM_CODE_END marker without matching START"
      else markerDepthCheck rest (depth - 1)

def validateNoNestedMarkers (cs : List Char) : Except String Unit :=
  let occs := mergeByPos (cs.length + 1)
    ((allOccs startMarker cs).map (fun p => (true, p)))
    ((allOccs endMarker cs).map (fun p => (false, p)))
  markerDepthCheck occs 0

/-- `DartAnalyzer._extract_file_header`: text before the first
line-start `import` (or, failing that, `class`), stripped; `None` when
empty or when neither anchor exists. -/
def extractFileHeader (cs : List Char) : Option (List Char) :=
  let he : Option Nat :=
    match firstLineStart lineStartsImport cs with
    | some p => some p
    | none => firstLineStart lineStartsClass cs
  match he with
  | none => none
  | some p =>
    let h := pyStripWs (cs.take p)
    if h.isEmpty then none else some h

/-- `DartAnalyzer.extract_imports` and `DartMerger._extract_imports`:
both keep each line's stripped text when it fully matches the
quoted-import pattern (the analyzer's capture group is unused there). -/
def extractImportLines (cs : List Char) : List (List Char) :=
  (splitNl cs).filterMap (fun line =>
    let s := pyStripWs line
    if (importLineCapture s).isSome then some s else none)

/-- `DartAnalyzer._extract_custom_sections_for_class`. -/
def extractCustomSectionsForClass (cs : List Char) (name : String) :
    List CustomSection :=
  match classOpenSearch name.data cs with
  | none => []
  | some (_, e) =>
    match findMatchingBrace cs (e - 1) with
    | none => []
    | some ce =>
      let body := (cs.drop e).take (ce - e)
      (sectionBodies body).map (fun b => ⟨String.mk b, name⟩)

/-- `DartAnalyzer.analyze_file` on the file's text (the file read and
`FileNotFoundError` live in the caller, embedded by `mergeFile`'s
`Option` argument): marker validation, then header, imports and the
per-class info dict in class-occurrence order. -/
def analyze (content : String) : Except String (List (String × DartClassInfo)) :=
  let cs := content.data
  let sc := countSub startMarker cs
  let ec := countSub endMarker cs
  if ¬ sc = ec then .error "Mismatched custom code markers"
  else
    match (if sc > 0 then validateNoNestedMarkers cs else .ok ()) with
    | .error e => .error e
    | .ok () =>
      let header := (extractFileHeader cs).map String.mk
      let imports := (extractImportLines cs).map String.mk
      let names := extractClassNames cs
      .ok (names.foldl (fun d n =>
        let secs := extractCustomSectionsForClass cs n
        dictSet d n ⟨n, ¬ secs.isEmpty, secs, imports, header⟩) [])



/-- `'/'.join`-style split for `path.split('/')`. -/
def splitSlash : List Char → List (List Char)
  | [] => [[]]
  | c :: t =>
    match splitSlash t with
    | [] => [[c]]
    | l :: ls => if c = '/' then [] :: l :: ls else (c :: l) :: ls

def joinWith (sep : List Char) : List (List Char) → List Char
  | [] => []
  | l :: ls => ls.foldl (fun acc x => acc ++ sep ++ x) l

/-- `path.split('/')[-1].replace('.dart', '')`. -/
def moduleOf (path : List Char) : List Char :=
  let last := (splitSlash path).getLastD []
  replaceAll ".dart".data [] (last.length + 1) last

/-- `DartMerger._format_custom_section`. -/
def formatCustomSection (sec : CustomSection) : List Char :=
  let lines := splitNl sec.content.data
  let formatted :=
    match lines with
    | l :: _ =>
      if ("  ".data).isPrefixOf l then sec.content.data
      else joinNl (lines.map (fun ln =>
        if ¬ (pyStripWs ln).isEmpty then "  ".data ++ ln else ln))
    | [] => []
  '\n' :: "  ".data ++ startMarker ++ '\n' :: formatted ++ "  ".data ++
    endMarker ++ ['\n']

/-- `DartMerger._remove_conflicting_methods`: per method the match
spans are listed once and then applied one by one to the shrinking
body, so spans after the first removal are stale indices into the
already-modified text — embedded exactly as the source does it. -/
def removeConflictingMethods (content : List Char) (methods : List (List Char))
    (class_start class_end : Nat) : List Char :=
  let body := (content.drop class_start).take (class_end - class_start)
  let modified := methods.foldl (fun mb m =>
    (removePatAll m mb).foldl (fun mb2 span =>
      let brace_start := span.2 - 1
      match findMethodEnd mb2 brace_start with
      | some me => mb2.take span.1 ++ mb2.drop (me + 1)
      | none => mb2) mb) body
  content.take class_start ++ modified ++ content.drop class_end

/-- `DartMerger.insert_custom_section` (`ValueError` is `.error ()`).
After method removal the source re-finds the class and, when the
re-found closing brace comes back `-1`, slices with it anyway — hence
the `Int` position and the Python-semantics `pyTake`/`pyDrop`. -/
def insertCustomSection (content : List Char) (sec : CustomSection) :
    Except Unit (List Char) :=
  match classOpenSearch sec.class_name.data content with
  | none => .error ()
  | some (_, mend) =>
    let class_start := mend
    match findClassEnd content (class_start - 1) with
    | none => .error ()
    | some closing =>
      let class_body := (content.drop class_start).take (closing - class_start)
      if containsSub startMarker class_body then .ok content
      else
        let custom_methods := detectMethodsInCustomCode sec.content.data
        let upd : List Char × Int :=
          if ¬ custom_methods.isEmpty then
            let c2 := removeConflictingMethods content custom_methods class_start closing
            match classOpenSearch sec.class_name.data c2 with
            | some (_, e2) =>
              (c2, match findClassEnd c2 (e2 - 1) with
                   | some p => (p : Int)
                   | none => -1)
            | none => (c2, (closing : Int))
          else (content, (closing : Int))
        .ok (pyTake upd.1 upd.2 ++ formatCustomSection sec ++ pyDrop upd.1 upd.2)

/-- `DartMerger.preserve_file_header`. -/
def preserveFileHeader (generated : List Char) (header : List Char) : List Char :=
  match firstLineStart (fun l => lineStartsImport l || lineStartsClass l) generated with
  | none => generated
  | some p => header ++ "\n\n".data ++ pyLstripWs (generated.drop p)

/-- `DartMerger._replace_imports`. -/
def replaceImports (content : List Char) (new_imports : List (List Char)) :
    List Char :=
  let lines := splitNl content
  let impIdxs := ((lines.enum).filter (fun p => lineStartsImport (pyStripWs p.2))).map (·.1)
  match impIdxs with
  | [] =>
    match ((lines.enum).find? (fun p => lineStartsClass (pyStripWs p.2))).map (·.1) with
    | some i => joinNl (lines.take i ++ new_imports ++ [[]] ++ lines.drop i)
    | none => joinNl lines
  | f :: rest =>
    let lastI := (f :: rest).getLastD f
    joinNl (lines.take f ++ new_imports ++ lines.drop (lastI + 1))

/-- `DartMerger.merge_imports`. -/
def mergeImports (generated_imports custom_imports : List (List Char))
    (content : List Char) : List Char :=
  let custom_paths : List (List Char × List Char) :=
    custom_imports.foldl (fun d imp =>
      match importPathCapture imp with
      | some p => dictSet d p imp
      | none => d) []
  let generated_paths : List (List Char × List Char) :=
    generated_imports.foldl (fun d imp =>
      match importPathCapture imp with
      | some p => dictSet d p imp
      | none => d) []
  let final_imports := custom_imports ++ generated_paths.filterMap (fun pi =>
    if dictHasKey custom_paths pi.1 then none
    else
      let m := moduleOf pi.1
      if custom_paths.any (fun q => moduleOf q.1 = m) then none
      else some pi.2)
  replaceImports content final_imports

/-- `DartAnalyzer.extract_class_code`. -/
def extractClassCode (cs : List Char) (name : String) : Option (List Char) :=
  match classOpenSearch name.data cs with
  | none => none
  | some (s, e) =>
    match findMatchingBrace cs (e - 1) with
    | none => none
    | some ce => some ((cs.drop s).take (ce + 1 - s))

/-- `DartMerger._normalize_preserved_class_names`. -/
def normalizePreservedClassNames (code : List Char) (name : String) : List Char :=
  if name.startsWith "Xdr" then code
  else wordSub name.data ("Xdr" ++ name).data code

/-- `DartMerger.preserve_missing_classes` (the existing file's text is
passed instead of re-reading the path).  The final reference fix-up
skips a generated class literally named `Xdr` (whose Python pattern
degenerates to the empty `\b\b`); such a class name cannot arise from
the generator. -/
def preserveMissingClasses (merged existing : List Char)
    (missing : List String) : List Char :=
  if missing.isEmpty then merged
  else
    let preserved := missing.filterMap (fun n =>
      (extractClassCode existing n).map (fun c => (n, normalizePreservedClassNames c n)))
    let normalized_names := (preserved.filter (fun p => ¬ p.1.startsWith "Xdr")).map
      (fun p => (p.1, "Xdr" ++ p.1))
    if preserved.isEmpty then merged
    else
      let m1 := pyRstripWs merged ++
        "\n\n// Preserved helper classes (not in XDR spec)\n".data
      let sec0 := joinWith "\n\n".data (preserved.map (·.2))
      let sec1 := normalized_names.foldl
        (fun s p => wordSub p.1.data p.2.data s) sec0
      let sec2 := (extractClassNames m1).foldl (fun s g =>
        if g.startsWith "Xdr" then
          let base := g.data.drop 3
          if base.isEmpty then s else wordSub base g.data s
        else s) sec1
      m1 ++ sec2 ++ ['\n']

inductive MergeErr where
  | runtimeError
  | attributeError
deriving DecidableEq

/-- The missing-class scan at the top of `merge_file`.  For a missing
class whose name starts with `Xdr` the source calls
`self.type_mapper.get_inline_struct_alias(...)`, a method `TypeMapper`
does not define (type_mapping.py has no such attribute), so Python
raises `AttributeError` out of `merge_file`. -/
def missingScan (classes : List (String × DartClassInfo)) (g : List Char) :
    Except MergeErr (List String) :=
  match classes with
  | [] => .ok []
  | (name, _) :: rest =>
    if classWordSearch name.data g then missingScan rest g
    else if ¬ name.startsWith "Xdr" ∧ classWordSearch ("Xdr" ++ name).data g then
      missingScan rest g
    else if name.startsWith "Xdr" then .error .attributeError
    else (missingScan rest g).map (name :: ·)

/-- `DartMerger.merge_file`: `existing = none` embeds a missing or
unspecified existing file; an analysis failure is the re-raised
`RuntimeError`. -/
def mergeFile (generated : String) (existing : Option String) :
    Except MergeErr String :=
  match existing with
  | none => .ok generated
  | some ex =>
    match analyze ex with
    | .error _ => .error .runtimeError
    | .ok classes =>
      let g := generated.data
      match missingScan classes g with
      | .error e => .error e
      | .ok missing =>
        let merged := classes.foldl (fun m ci =>
          ci.2.custom_sections.foldl (fun m' sec =>
            match insertCustomSection m' sec with
            | .ok r => r
            | .error () => m') m) g
        let merged :=
          if ¬ missing.isEmpty then preserveMissingClasses merged ex.data missing
          else merged
        let merged :=
          match classes with
          | [] => merged
          | (_, first) :: _ =>
            if ¬ first.imports.isEmpty then
              mergeImports (extractImportLines merged)
                (first.imports.map (·.data)) merged
            else merged
        let merged :=
          match classes with
          | [] => merged
          | (_, first) :: _ =>
            match first.file_header with
            | some h => preserveFileHeader merged h.data
            | none => merged
        .ok (String.mk merged)



/-- A file whose class `Y` already contains a custom-code marker. -/
def c3MarkedContent : List Char :=
  "class Y \x7b\n  // CUSTOM_CODE_START\n  x\n  // CUSTOM_CODE_END\n\x7d\n".data



/-- C2 (amended core): one step of the analyzer's four-state
matching-brace scanner never changes the brace depth (and never
declares the closing brace found) while inside a line comment, a block
comment, or a quoted string, nor in the normal state at any character
other than a literal `\x7b`/`\x7d`: only normal-state braces are
counted. -/
theorem analyzer_brace_scan_counts_only_normal_braces
    (cs : List Char) (st : BraceSt) (hd : 0 < st.depth)
    (h : st.in_single = true ∨ st.in_multi = true ∨ st.in_string = true ∨
      (¬ cs.getD st.pos (Char.ofNat 0) = '\x7b' ∧
       ¬ cs.getD st.pos (Char.ofNat 0) = '\x7d')) :
    ∃ st', braceStep cs st = .ok st' ∧ st'.depth = st.depth := by
  unfold braceStep
  dsimp only
  by_cases h1 : ¬ st.in_string = true ∧ ¬ st.in_multi = true ∧
      cs.getD st.pos (Char.ofNat 0) = '/' ∧
      (if st.pos + 1 < cs.length then cs.getD (st.pos + 1) (Char.ofNat 0)
       else Char.ofNat 0) = '/'
  · rw [if_pos h1]
    exact ⟨_, rfl, rfl⟩
  · rw [if_neg h1]
    by_cases h2 : st.in_single = true ∧ cs.getD st.pos (Char.ofNat 0) = '\n'
    · rw [if_pos h2]
      exact ⟨_, rfl, rfl⟩
    · rw [if_neg h2]
      by_cases h3 : ¬ st.in_string = true ∧ ¬ st.in_single = true ∧
          cs.getD st.pos (Char.ofNat 0) = '/' ∧
          (if st.pos + 1 < cs.length then cs.getD (st.pos + 1) (Char.ofNat 0)
           else Char.ofNat 0) = '*'
      · rw [if_pos h3]
        exact ⟨_, rfl, rfl⟩
      · rw [if_neg h3]
        by_cases h4 : st.in_multi = true ∧ cs.getD st.pos (Char.ofNat 0) = '*' ∧
            (if st.pos + 1 < cs.length then cs.getD (st.pos + 1) (Char.ofNat 0)
             else Char.ofNat 0) = '/'
        · rw [if_pos h4]
          exact ⟨_, rfl, rfl⟩
        · rw [if_neg h4]
          by_cases h5 : st.in_single = true ∨ st.in_multi = true
          · rw [if_pos h5]
            exact ⟨_, rfl, rfl⟩
          · rw [if_neg h5]
            -- normal or in-string processing; depth is preserved
            have hsm : st.in_single = false ∧ st.in_multi = false := by
              constructor <;> (cases hx : st.in_single <;> cases hy : st.in_multi <;>
                simp_all)
            have hchar : st.in_string = true ∨
                (¬ cs.getD st.pos (Char.ofNat 0) = '\x7b' ∧
                 ¬ cs.getD st.pos (Char.ofNat 0) = '\x7d') := by
              rcases h with hh | hh | hh | hh
              · exact absurd hh (by simp [hsm.1])
              · exact absurd hh (by simp [hsm.2])
              · exact .inl hh
              · exact .inr hh
            by_cases hq : (cs.getD st.pos (Char.ofNat 0) = '"' ∨
                cs.getD st.pos (Char.ofNat 0) = '\'') ∧
                ¬ (if st.pos > 0 then cs.getD (st.pos - 1) (Char.ofNat 0)
                   else Char.ofNat 0) = '\\'
            · rw [if_pos hq]
              by_cases hin : ¬ st.in_string = true
              · rw [if_pos hin]
                dsimp only
                rw [if_neg (show ¬ ¬ (true : Bool) = true by decide)]
                rw [if_neg (by omega)]
                exact ⟨_, rfl, rfl⟩
              · rw [if_neg hin]
                have hst : st.in_string = true := by
                  cases hxx : st.in_string <;> simp_all
                by_cases hx : some (cs.getD st.pos (Char.ofNat 0)) = st.string_char
                · rw [if_pos hx]
                  dsimp only
                  rw [if_pos (show ¬ (false : Bool) = true by decide)]
                  rcases hq.1 with h' | h'
                  · rw [h']
                    rw [if_neg (show ¬ ('"' : Char) = '\x7b' by decide),
                      if_neg (show ¬ ('"' : Char) = '\x7d' by decide)]
                    rw [if_neg (by omega)]
                    exact ⟨_, rfl, rfl⟩
                  · rw [h']
                    rw [if_neg (show ¬ ('\'' : Char) = '\x7b' by decide),
                      if_neg (show ¬ ('\'' : Char) = '\x7d' by decide)]
                    rw [if_neg (by omega)]
                    exact ⟨_, rfl, rfl⟩
                · rw [if_neg hx]
                  dsimp only
                  rw [if_neg (show ¬ ¬ st.in_string = true by simp [hst])]
                  rw [if_neg (by omega)]
                  exact ⟨_, rfl, rfl⟩
            · rw [if_neg hq]
              dsimp only
              by_cases hst : st.in_string = true
              · rw [if_neg (show ¬ ¬ st.in_string = true by simp [hst])]
                rw [if_neg (by omega)]
                exact ⟨_, rfl, rfl⟩
              · have hnb : ¬ cs.getD st.pos (Char.ofNat 0) = '\x7b' ∧
                    ¬ cs.getD st.pos (Char.ofNat 0) = '\x7d' := by
                  rcases hchar with hh | hh
                  · exact absurd hh hst
                  · exact hh
                rw [if_pos hst]
                rw [if_neg hnb.1, if_neg hnb.2]
                rw [if_neg (by omega)]
                exact ⟨_, rfl, rfl⟩



/-- C2 (counterexample): determining the closing brace of `class X`'s
body in `\x7b // \x7d\n\x7d` — a line comment containing a `\x7d` — the
merger's `_find_class_end` stops at position 5, the commented-out
brace, while the analyzer's four-state `_find_matching_brace` correctly
skips it and stops at position 7. -/
theorem findClassEnd_counts_brace_inside_line_comment :
    findClassEnd ("\x7b // \x7d\n\x7d".data) 0 = some 5 ∧
    findMatchingBrace ("\x7b // \x7d\n\x7d".data) 0 = some 7 ∧
    ¬ (5 : Nat) = 7 :=
  ⟨rfl, rfl, by decide⟩

/-- Concrete run of the C2 theorem: inside a line comment (state
`in_single`), a step of the analyzer's scanner sitting right on a
`\x7d` leaves the depth unchanged; in the normal state on a letter it
does too. -/
theorem analyzer_brace_scan_counts_only_normal_braces_witness :
    (0 < (1 : Int) ∧
      ∃ st', braceStep ("\x7b// \x7d\n\x7d".data) ⟨4, 1, false, none, true, false⟩ = .ok st' ∧
        st'.depth = 1) ∧
    (0 < (1 : Int) ∧
      ∃ st', braceStep ("\x7bab\x7d".data) ⟨1, 1, false, none, false, false⟩ = .ok st' ∧
        st'.depth = 1) := by
  constructor
  · exact ⟨by decide,
      analyzer_brace_scan_counts_only_normal_braces ("\x7b// \x7d\n\x7d".data)
        ⟨4, 1, false, none, true, false⟩ (by decide) (by decide)⟩
  · exact ⟨by decide,
      analyzer_brace_scan_counts_only_normal_braces ("\x7bab\x7d".data)
        ⟨1, 1, false, none, false, false⟩ (by decide) (by decide)⟩

/-- C3 (counterexample): `merge_file` is not idempotent.  With an
existing file whose imports come after a class (so the analyzer's
header extraction takes the class text itself as the file header),
`preserve_file_header` prepends that header again on every merge:
the second merge against the same existing file differs from the
first. -/
theorem mergeFile_not_idempotent :
    mergeFile "class X \x7b\x7d\n" (some "class X \x7b\x7d\nimport 'a.dart';\n") =
      .ok "class X \x7b\x7d\n\nimport 'a.dart';\n\nclass X \x7b\x7d\n" ∧
    mergeFile "class X \x7b\x7d\n\nimport 'a.dart';\n\nclass X \x7b\x7d\n"
        (some "class X \x7b\x7d\nimport 'a.dart';\n") =
      .ok "class X \x7b\x7d\n\nclass X \x7b\x7d\n\nimport 'a.dart';\n\nclass X \x7b\x7d\n" ∧
    ¬ ("class X \x7b\x7d\n\nimport 'a.dart';\n\nclass X \x7b\x7d\n" =
       "class X \x7b\x7d\n\nclass X \x7b\x7d\n\nimport 'a.dart';\n\nclass X \x7b\x7d\n") :=
  ⟨rfl, rfl, by decide⟩

/-- C3 (amended core): `insert_custom_section` does skip insertion when
the start marker is already present in the matched class body — it
returns its input unchanged. -/
theorem insertCustomSection_skips_when_marker_present
    (content : List Char) (sec : CustomSection) (s e cpos : Nat)
    (hm : classOpenSearch sec.class_name.data content = some (s, e))
    (hc : findClassEnd content (e - 1) = some cpos)
    (hmark : containsSub startMarker ((content.drop e).take (cpos - e)) = true) :
    insertCustomSection content sec = .ok content := by
  unfold insertCustomSection
  rw [hm]
  dsimp only
  rw [hc]
  dsimp only
  rw [if_pos hmark]

/-- Concrete run of the C3 theorem: inserting a section into a class
whose body already carries the start marker returns the text
unchanged. -/
theorem insertCustomSection_skips_when_marker_present_witness :
    classOpenSearch "Y".data c3MarkedContent = some (0, 9) ∧
    findClassEnd c3MarkedContent 8 = some 58 ∧
    containsSub startMarker ((c3MarkedContent.drop 9).take 49) = true ∧
    insertCustomSection c3MarkedContent ⟨"  void zz() \x7b\x7d", "Y"⟩ =
      .ok c3MarkedContent :=
  ⟨rfl, rfl, rfl,
    insertCustomSection_skips_when_marker_present c3MarkedContent
      ⟨"  void zz() \x7b\x7d", "Y"⟩ 0 9 58 rfl rfl rfl⟩

end XdrGen
